import Mathlib

/-!
AnnotatedDataLayer: batch assembly and label encoding.

A shallow embedding of `src/caffe/layers/annotated_data_layer.cpp`
(`DataLayerSetUp` and `load_batch`).

* `Dtype` values are exact rationals; floating-point rounding is not modelled.
* The label buffer is a flat memory `Nat → ℚ` together with the element count of
  the tensor laid over it.  The source indexes that buffer through a raw pointer
  without any bound check; a store or a repeated-field lookup outside the range
  is undefined behaviour in the source and is reported here as
  `Failure.outOfRange`.
* Counters, sizes and indices (`batch_size`, `iters_`, `policy_num_`, `idx`) are
  natural numbers; wrap-around of the machine integers is not modelled.
* Everything the layer obtains from its collaborators (the reader queue, the
  data transformer, the random die) is an explicit input.
-/

namespace AnnotatedDataLayer

/-! ## Data model -/

/-- Resize modes of a resize policy (`ResizeParameter_Resize_mode_*`). -/
inductive Resize_mode
  | WARP
  | FIT_SMALL_SIZE
  | FIT_LARGE_SIZE_AND_PAD
  deriving DecidableEq

/-- One configured resize policy: its selection probability and its mode. -/
structure ResizeParameter where
  prob : ℚ
  resize_mode : Resize_mode
  deriving DecidableEq

/-- Modelled from the spec: the annotation-type enumeration is declared outside
the sources; the layer only distinguishes the bounding-box type from anything
else ("an unrecognized annotation type is fatal"). -/
inductive AnnotationType
  | BBOX
  | UNKNOWN
  deriving DecidableEq

/-- A normalized bounding box with its difficulty flag. -/
structure NormalizedBBox where
  xmin : ℚ
  ymin : ℚ
  xmax : ℚ
  ymax : ℚ
  difficult : Bool
  deriving DecidableEq

/-- One annotation: an instance id and a box. -/
structure Annotation where
  instance_id : Int
  bbox : NormalizedBBox
  deriving DecidableEq

/-- Annotations sharing one group label. -/
structure AnnotationGroup where
  group_label : Int
  annotation : List Annotation
  deriving DecidableEq

/-- Ways a pass can stop.  All constructors but the last are the fatal checks of
the source (`CHECK*`, `LOG(FATAL)`); `outOfRange` stands for an access outside a
buffer or a repeated field, which the source performs unchecked. -/
inductive Failure
  | batchSizeNotOne
  | unknownAnnotationType
  | emptyBlob
  | probOutOfRange
  | probSumNotOne
  | shapeMismatch
  | missingAnnotationType
  | differentAnnotationType
  | missingLabel
  | outOfRange
  deriving DecidableEq

/-- Flat cpu memory of a blob, addressed from its base pointer. -/
abbrev Mem := Nat → ℚ

/-- Modelled from the spec: the tensor class is outside the sources; a blob is a
shape together with the flat memory its elements live in. -/
structure Blob where
  shape : List Nat
  data : Mem

/-- Number of elements of the tensor. -/
def Blob.count (b : Blob) : Nat := b.shape.prod

/-- Modelled from the spec: reshaping sets the shape and leaves the memory as it
is, so the cells of the new tensor hold whatever they held before. -/
def Blob.Reshape (b : Blob) (shape : List Nat) : Blob :=
  { shape := shape, data := b.data }

/-- Modelled from the spec: flat offset of item `n` in a 4-d tensor,
`n * channels * height * width`. -/
def Blob.offset (b : Blob) (n : Nat) : Nat :=
  ((n * b.shape.getD 1 1) * b.shape.getD 2 1) * b.shape.getD 3 1

/-- The unchecked store `top_label[idx] = v`. -/
def store (count : Nat) (m : Mem) (idx : Nat) (v : ℚ) : Except Failure Mem :=
  if idx < count then .ok (Function.update m idx v) else .error .outOfRange

/-- Modelled from the spec: `caffe_set(n, alpha, p)` writes `alpha` to the `n`
cells starting at `p`. -/
def caffe_set (count n : Nat) (alpha : ℚ) (p : Nat) (m : Mem) : Except Failure Mem :=
  if p + n ≤ count then .ok (fun j => if p ≤ j ∧ j < p + n then alpha else m j)
  else .error .outOfRange

/-- A run of `top_label[idx++] = v` statements, one per value of the list. -/
def storeAll (count : Nat) : List ℚ → Nat → Mem → Except Failure (Nat × Mem)
  | [], idx, m => .ok (idx, m)
  | v :: vs, idx, m =>
    match store count m idx v with
    | .error e => .error e
    | .ok m1 => storeAll count vs (idx + 1) m1

/-! ## Label encoding (`load_batch`, "Store rich annotation") -/

/-- Values stored for one annotation in fixed-slot mode:
`group_label - 1, x, y, w, h`. -/
def yoloRow (group_label : Int) (bbox : NormalizedBBox) : List ℚ :=
  [((group_label - 1 : Int) : ℚ),
   (bbox.xmin + bbox.xmax) / 2,
   (bbox.ymin + bbox.ymax) / 2,
   bbox.xmax - bbox.xmin,
   bbox.ymax - bbox.ymin]

/-- Values stored for one annotation in dense mode. -/
def denseRow (item_id : Nat) (group_label : Int) (anno : Annotation) : List ℚ :=
  [(item_id : ℚ), (group_label : ℚ), (anno.instance_id : ℚ),
   anno.bbox.xmin, anno.bbox.ymin, anno.bbox.xmax, anno.bbox.ymax,
   if anno.bbox.difficult then 1 else 0]

/-- The loop over the annotations of one group (`for a < annotation_size()`). -/
def encodeAnnotations (yolo train_diffcult : Bool) (count item_id : Nat) (group_label : Int) :
    List Annotation → Nat → Mem → Except Failure (Nat × Mem)
  | [], idx, m => .ok (idx, m)
  | anno :: rest, idx, m =>
    let r :=
      if yolo then
        if !anno.bbox.difficult || train_diffcult then
          storeAll count (yoloRow group_label anno.bbox) idx m
        else .ok (idx, m)
      else storeAll count (denseRow item_id group_label anno) idx m
    match r with
    | .error e => .error e
    | .ok (idx1, m1) =>
      encodeAnnotations yolo train_diffcult count item_id group_label rest idx1 m1

/-- The loop over the groups of one item (`for g < anno_vec.size()`). -/
def encodeGroups (yolo train_diffcult : Bool) (count item_id : Nat) :
    List AnnotationGroup → Nat → Mem → Except Failure (Nat × Mem)
  | [], idx, m => .ok (idx, m)
  | g :: rest, idx, m =>
    match encodeAnnotations yolo train_diffcult count item_id g.group_label g.annotation idx m with
    | .error e => .error e
    | .ok (idx1, m1) => encodeGroups yolo train_diffcult count item_id rest idx1 m1

/-- The loop over the items (`for item_id < batch_size`); the list holds
`all_anno[item_id]`, `all_anno[item_id + 1]`, ... -/
def encodeItems (yolo train_diffcult : Bool) (label : Blob) :
    Nat → List (List AnnotationGroup) → Nat → Mem → Except Failure (Nat × Mem)
  | _, [], idx, m => .ok (idx, m)
  | item_id, anno_vec :: rest, idx, m =>
    let r : Except Failure (Nat × Mem) :=
      if yolo then
        match caffe_set label.count (300 * 5) 0 (label.offset item_id) m with
        | .error e => .error e
        | .ok m0 => .ok (label.offset item_id, m0)
      else .ok (idx, m)
    match r with
    | .error e => .error e
    | .ok (idx0, m0) =>
      match encodeGroups yolo train_diffcult label.count item_id anno_vec idx0 m0 with
      | .error e => .error e
      | .ok (idx1, m1) => encodeItems yolo train_diffcult label (item_id + 1) rest idx1 m1

/-- Number of boxes of one transformed annotation vector
(`num_bboxes += transformed_anno_vec[g].annotation_size()`). -/
def annoVecBBoxes (anno_vec : List AnnotationGroup) : Nat :=
  (anno_vec.map (fun g => g.annotation.length)).sum

/-- The items `all_anno[0] .. all_anno[batch_size - 1]` of the annotation map. -/
def batchItems (batch_size : Nat) (all_anno : Nat → List AnnotationGroup) :
    List (List AnnotationGroup) :=
  (List.range batch_size).map all_anno

/-- Total of `num_bboxes` accumulated by the item loop of one pass. -/
def countBBoxes (batch_size : Nat) (all_anno : Nat → List AnnotationGroup) : Nat :=
  ((batchItems batch_size all_anno).map annoVecBBoxes).sum

/-- The rich-annotation block of `load_batch`: reshape the label blob and fill it. -/
def storeRichAnnotation (yolo_data_type : Int) (train_diffcult : Bool)
    (anno_type : AnnotationType) (batch_size : Nat)
    (all_anno : Nat → List AnnotationGroup) (num_bboxes : Nat) (label : Blob) :
    Except Failure Blob :=
  if anno_type = AnnotationType.BBOX then
    let yolo : Bool := decide (yolo_data_type = 1)
    let shape0 := if yolo then batch_size else 1
    let shape3 := if yolo then 5 else 8
    if num_bboxes = 0 then
      if yolo then
        let lab := label.Reshape [shape0, 1, 300, shape3]
        match caffe_set lab.count 8 0 0 lab.data with
        | .error e => .error e
        | .ok m => .ok { lab with data := m }
      else
        let lab := label.Reshape [shape0, 1, 1, shape3]
        match caffe_set lab.count 8 (-1) 0 lab.data with
        | .error e => .error e
        | .ok m => .ok { lab with data := m }
    else
      let lab :=
        if yolo then label.Reshape [shape0, 1, 300, shape3]
        else label.Reshape [shape0, 1, num_bboxes, shape3]
      match encodeItems yolo train_diffcult lab 0 (batchItems batch_size all_anno) 0 lab.data with
      | .error e => .error e
      | .ok (_, m) => .ok { lab with data := m }
  else .error .unknownAnnotationType

/-! ## Layer configuration and state -/

/-- The configuration values read by the layer. -/
structure Config where
  batch_size : Nat
  batch_sampler_size : Nat
  yolo_data_type : Int
  train_diffcult : Bool
  has_anno_type : Bool
  anno_type : AnnotationType
  resize_param : List ResizeParameter
  output_labels : Bool

/-- The members of the layer that `DataLayerSetUp` initialises and `load_batch`
reads or updates. -/
structure Layer where
  iters : Nat
  policy_num : Nat
  has_anno_type : Bool
  anno_type : AnnotationType

/-- What `DataLayerSetUp` reads from the datum it peeks: its annotation type, its
annotation groups and the blob shape the transformer infers for policy 0. -/
structure SetupDatum where
  has_type : Bool
  type : AnnotationType
  annotation_group : List AnnotationGroup
  top_shape : List Nat

/-- Outcome of a completed setup: the layer members, the shape of the data blob
and the shape of the label blob when labels are output. -/
structure SetupResult where
  layer : Layer
  data_shape : List Nat
  label_shape : Option (List Nat)

/-- The batch-size check of `DataLayerSetUp` ("Make sure dimension is consistent
within batch"): only `resize_param(0)` is inspected. -/
def setupResizeCheck (batch_size : Nat) : List ResizeParameter → Except Failure Unit
  | [] => .ok ()
  | p0 :: _ =>
    if p0.resize_mode = Resize_mode.FIT_SMALL_SIZE then
      if batch_size = 1 then .ok () else .error .batchSizeNotOne
    else .ok ()

/-- The label shape computed by `DataLayerSetUp` when labels are output. -/
def setupLabelShape (cfg : Config) (d : SetupDatum) :
    Except Failure (Bool × AnnotationType × List Nat) :=
  let has_anno_type := d.has_type || cfg.has_anno_type
  if has_anno_type then
    let anno_type := if cfg.has_anno_type then cfg.anno_type else d.type
    if anno_type = AnnotationType.BBOX then
      let num_bboxes := annoVecBBoxes d.annotation_group
      if cfg.yolo_data_type = 1 then .ok (true, anno_type, [cfg.batch_size, 1, 300, 5])
      else .ok (true, anno_type, [1, 1, max num_bboxes 1, 8])
    else .error .unknownAnnotationType
  else .ok (false, AnnotationType.BBOX, [cfg.batch_size, 1, 1, 1])

/-- The function `DataLayerSetUp`. -/
def DataLayerSetUp (cfg : Config) (d : SetupDatum) : Except Failure SetupResult :=
  match setupResizeCheck cfg.batch_size cfg.resize_param with
  | .error e => .error e
  | .ok _ =>
    let data_shape := d.top_shape.set 0 cfg.batch_size
    if cfg.output_labels then
      match setupLabelShape cfg d with
      | .error e => .error e
      | .ok (has_anno_type, anno_type, label_shape) =>
        .ok { layer := { iters := 0, policy_num := 0,
                         has_anno_type := has_anno_type, anno_type := anno_type },
              data_shape := data_shape, label_shape := some label_shape }
    else
      .ok { layer := { iters := 0, policy_num := 0,
                       has_anno_type := false, anno_type := AnnotationType.BBOX },
            data_shape := data_shape, label_shape := none }

/-! ## One pass of `load_batch` -/

/-- One datum popped from the reader, with what the transformer returns for it
in this pass: the inferred blob shape and the transformed annotation groups. -/
structure Sample where
  has_type : Bool
  type : AnnotationType
  shape : List Nat
  transformed_anno_vec : List AnnotationGroup
  has_label : Bool
  label : Int

/-- Everything one pass receives from outside the layer. -/
structure Pass where
  data_count : Nat
  transformed_count : Nat
  die : List ℚ → Nat
  top_shape : List Nat
  reader : Nat → Sample
  label : Blob

/-- What a completed pass hands over: the shape of the data blob and the label
blob. -/
structure Batch where
  data_shape : List Nat
  label : Blob

/-- The constant `prob_eps`. -/
def prob_eps : ℚ := 1 / 100

/-- The loop that validates each probability and accumulates `prob_sum`. -/
def checkProbs : List ResizeParameter → ℚ → Except Failure ℚ
  | [], prob_sum => .ok prob_sum
  | p :: ps, prob_sum =>
    if 0 ≤ p.prob then
      if p.prob ≤ 1 then checkProbs ps (prob_sum + p.prob) else .error .probOutOfRange
    else .error .probOutOfRange

/-- The policy roll at the start of `load_batch`. -/
def rollPolicy (cfg : Config) (die : List ℚ → Nat) (layer : Layer) : Except Failure Layer :=
  let num_resize_policies := cfg.resize_param.length
  if 0 < num_resize_policies ∧ layer.iters % 10 = 0 then
    match checkProbs cfg.resize_param 0 with
    | .error e => .error e
    | .ok prob_sum =>
      if prob_sum ≤ 1 + prob_eps ∧ 1 - prob_eps ≤ prob_sum then
        .ok { layer with policy_num := die (cfg.resize_param.map (fun p => p.prob)) }
      else .error .probSumNotOne
  else .ok layer

/-- Region selection of one item, as far as the layer itself decides it: with
batch samplers nothing is looked up; with jitter sampling (`yolo_data_type = 1`
and no batch sampler) the keep-aspect flag is read from
`resize_param(policy_num)`.  The result is the flag when jitter sampling ran. -/
def regionSelection (cfg : Config) (policy_num : Nat) : Except Failure (Option Bool) :=
  if 0 < cfg.batch_sampler_size ∨ cfg.yolo_data_type = 1 then
    if 0 < cfg.batch_sampler_size then .ok none
    else
      match cfg.resize_param[policy_num]? with
      | none => .error .outOfRange
      | some p => .ok (some (decide (p.resize_mode = Resize_mode.FIT_LARGE_SIZE_AND_PAD)))
  else .ok none

/-- Shape reconciliation of one item: the result is the shape of the data blob
after the step. -/
def reconcileShape (resize_param : List ResizeParameter) (policy_num : Nat)
    (top_shape shape data_shape : List Nat) : Except Failure (List Nat) :=
  if 0 < resize_param.length then
    match resize_param[policy_num]? with
    | none => .error .outOfRange
    | some p =>
      if p.resize_mode = Resize_mode.FIT_SMALL_SIZE then .ok shape
      else .ok data_shape
  else
    if (top_shape.drop 1).take 3 = (shape.drop 1).take 3 then .ok data_shape
    else .error .shapeMismatch

/-- State threaded through the item loop. -/
structure Acc where
  data_shape : List Nat
  all_anno : Nat → List AnnotationGroup
  num_bboxes : Nat
  label_data : Mem

/-- Transformation and annotation bookkeeping of one item. -/
def annotateItem (cfg : Config) (layer : Layer) (label_count item_id : Nat) (s : Sample)
    (acc : Acc) : Except Failure Acc :=
  if cfg.output_labels then
    if layer.has_anno_type then
      if s.has_type = false then .error .missingAnnotationType
      else if cfg.has_anno_type = false ∧ layer.anno_type ≠ s.type then
        .error .differentAnnotationType
      else if layer.anno_type = AnnotationType.BBOX then
        .ok { acc with
              num_bboxes := acc.num_bboxes + annoVecBBoxes s.transformed_anno_vec,
              all_anno := Function.update acc.all_anno item_id s.transformed_anno_vec }
      else .error .unknownAnnotationType
    else
      if s.has_label then
        match store label_count acc.label_data item_id (s.label : ℚ) with
        | .error e => .error e
        | .ok m => .ok { acc with label_data := m }
      else .error .missingLabel
  else .ok acc

/-- The body of the item loop for one `item_id`. -/
def processItem (cfg : Config) (layer : Layer) (pass : Pass) (top_shape : List Nat)
    (item_id : Nat) (acc : Acc) : Except Failure Acc :=
  let s := pass.reader item_id
  match regionSelection cfg layer.policy_num with
  | .error e => .error e
  | .ok _ =>
    match reconcileShape cfg.resize_param layer.policy_num top_shape s.shape acc.data_shape with
    | .error e => .error e
    | .ok data_shape =>
      annotateItem cfg layer pass.label.count item_id s { acc with data_shape := data_shape }

/-- The item loop, over the item ids still to process. -/
def itemLoop (cfg : Config) (layer : Layer) (pass : Pass) (top_shape : List Nat) :
    List Nat → Acc → Except Failure Acc
  | [], acc => .ok acc
  | item_id :: rest, acc =>
    match processItem cfg layer pass top_shape item_id acc with
    | .error e => .error e
    | .ok acc1 => itemLoop cfg layer pass top_shape rest acc1

/-- The function `load_batch`: one pass. -/
def load_batch (cfg : Config) (layer : Layer) (pass : Pass) : Except Failure (Layer × Batch) :=
  if pass.data_count = 0 ∨ pass.transformed_count = 0 then .error .emptyBlob
  else
    match rollPolicy cfg pass.die layer with
    | .error e => .error e
    | .ok layer1 =>
      let top_shape := pass.top_shape.set 0 cfg.batch_size
      let acc0 : Acc :=
        { data_shape := top_shape, all_anno := fun _ => [], num_bboxes := 0,
          label_data := pass.label.data }
      match itemLoop cfg layer1 pass top_shape (List.range cfg.batch_size) acc0 with
      | .error e => .error e
      | .ok acc =>
        let lab : Except Failure Blob :=
          if cfg.output_labels ∧ layer1.has_anno_type then
            storeRichAnnotation cfg.yolo_data_type cfg.train_diffcult layer1.anno_type
              cfg.batch_size acc.all_anno acc.num_bboxes pass.label
          else .ok { pass.label with data := acc.label_data }
        match lab with
        | .error e => .error e
        | .ok label =>
          .ok ({ layer1 with iters := layer1.iters + 1 },
               { data_shape := acc.data_shape, label := label })

/-- A run of passes from a layer state: the states before each pass and after
the last one, or the failure that stopped the run. -/
def runPasses (cfg : Config) : Layer → List Pass → Except Failure (List Layer)
  | layer, [] => .ok [layer]
  | layer, pass :: rest =>
    match load_batch cfg layer pass with
    | .error e => .error e
    | .ok (layer1, _) =>
      match runPasses cfg layer1 rest with
      | .error e => .error e
      | .ok states => .ok (layer :: states)

/-! ## Reference layouts of the label tensor, following the specification -/

/-- Annotations of one item that pass the difficulty filter, each with the label
of its group, in group-then-annotation order. -/
def survivors (train_diffcult : Bool) (anno_vec : List AnnotationGroup) :
    List (Int × NormalizedBBox) :=
  anno_vec.flatMap (fun g =>
    (g.annotation.filter (fun a => !a.bbox.difficult || train_diffcult)).map
      (fun a => (g.group_label, a.bbox)))

/-- The fixed-slot row the specification prescribes for a box with corners
`(x0, y0, x1, y1)` and group label `L`. -/
def specSlotRow (L : Int) (b : NormalizedBBox) : List ℚ :=
  [(L : ℚ) - 1, (b.xmin + b.xmax) / 2, (b.ymin + b.ymax) / 2,
   b.xmax - b.xmin, b.ymax - b.ymin]

/-- The dense rows of one item, in group-then-annotation order. -/
def specDenseRowsOfItem (item_id : Nat) (anno_vec : List AnnotationGroup) : List (List ℚ) :=
  anno_vec.flatMap (fun g => g.annotation.map (fun a =>
    [(item_id : ℚ), (g.group_label : ℚ), (a.instance_id : ℚ),
     a.bbox.xmin, a.bbox.ymin, a.bbox.xmax, a.bbox.ymax,
     if a.bbox.difficult then 1 else 0]))

/-- The dense rows of a batch, by ascending item id. -/
def specDenseRows (batch_size : Nat) (all_anno : Nat → List AnnotationGroup) :
    List (List ℚ) :=
  (List.range batch_size).flatMap (fun i => specDenseRowsOfItem i (all_anno i))

/-- Field `f` of slot `j` of item `i` of a fixed-slot label tensor. -/
def slotField (b : Blob) (i j f : Nat) : ℚ := b.data (i * 1500 + j * 5 + f)

/-- The five fields of slot `j` of item `i`. -/
def slotRow (b : Blob) (i j : Nat) : List ℚ := (List.range 5).map (slotField b i j)

/-- Annotations of one item whose box is not flagged difficult, each with the
label of its group, in group-then-annotation order. -/
def nonDifficult (anno_vec : List AnnotationGroup) : List (Int × NormalizedBBox) :=
  anno_vec.flatMap (fun g =>
    (g.annotation.filter (fun a => !a.bbox.difficult)).map (fun a => (g.group_label, a.bbox)))

/-- All annotations of one item, each with the label of its group, in
group-then-annotation order. -/
def allAnnotations (anno_vec : List AnnotationGroup) : List (Int × NormalizedBBox) :=
  anno_vec.flatMap (fun g => g.annotation.map (fun a => (g.group_label, a.bbox)))

/-- The transformed annotation groups of the items of a pass, by item id. -/
def Pass.all_anno (pass : Pass) : Nat → List AnnotationGroup :=
  fun i => (pass.reader i).transformed_anno_vec

/-! ## Concrete boxes, samples, configurations and passes -/

/-- A box that is not flagged difficult. -/
def exBoxA : NormalizedBBox :=
  { xmin := 1 / 4, ymin := 1 / 4, xmax := 3 / 4, ymax := 1, difficult := false }

/-- A box flagged difficult. -/
def exBoxB : NormalizedBBox :=
  { xmin := 0, ymin := 1 / 2, xmax := 1 / 2, ymax := 1, difficult := true }

/-- A bounding-box sample of shape `[1, 3, 300, 300]` with the given transformed
annotation groups. -/
def exSample (groups : List AnnotationGroup) : Sample :=
  { has_type := true, type := AnnotationType.BBOX, shape := [1, 3, 300, 300],
    transformed_anno_vec := groups, has_label := false, label := 0 }

/-- A layer right after setup on bounding-box data. -/
def exLayer : Layer :=
  { iters := 0, policy_num := 0, has_anno_type := true, anno_type := AnnotationType.BBOX }

/-- A pass over the given reader whose label buffer holds 7 in every cell on
entry and whose die always returns `roll`. -/
def exPass (roll : Nat) (reader : Nat → Sample) : Pass :=
  { data_count := 1, transformed_count := 1, die := fun _ => roll,
    top_shape := [1, 3, 300, 300], reader := reader,
    label := { shape := [1, 1, 1, 8], data := fun _ => 7 } }

/-- A configuration with one batch sampler and the given batch size, label
format, difficulty flag and resize policies. -/
def exCfg (batch_size : Nat) (yolo_data_type : Int) (train_diffcult : Bool)
    (resize_param : List ResizeParameter) : Config :=
  { batch_size := batch_size, batch_sampler_size := 1, yolo_data_type := yolo_data_type,
    train_diffcult := train_diffcult, has_anno_type := false,
    anno_type := AnnotationType.BBOX, resize_param := resize_param, output_labels := true }

/-- A configuration that uses jitter sampling: fixed-slot labels and no batch
sampler. -/
def exCfgJitter (batch_size : Nat) (resize_param : List ResizeParameter) : Config :=
  { batch_size := batch_size, batch_sampler_size := 0, yolo_data_type := 1,
    train_diffcult := false, has_anno_type := false,
    anno_type := AnnotationType.BBOX, resize_param := resize_param, output_labels := true }

/-- The datum peeked at setup in the examples. -/
def exSetupDatum : SetupDatum :=
  { has_type := true, type := AnnotationType.BBOX, annotation_group := [],
    top_shape := [1, 3, 300, 300] }

/-- One sample per item, each with one box: item `i` carries instance id `i`. -/
def exOneBoxReader : Nat → Sample :=
  fun i => exSample [{ group_label := 3, annotation := [{ instance_id := i, bbox := exBoxA }] }]

/-- One sample per item, each with a difficult box followed by a plain one. -/
def exMixedReader : Nat → Sample :=
  fun _ => exSample [{ group_label := 3,
                       annotation := [{ instance_id := 0, bbox := exBoxB },
                                      { instance_id := 1, bbox := exBoxA }] }]

/-- One sample per item, each with 301 plain boxes. -/
def exCrowdedReader : Nat → Sample :=
  fun _ => exSample [{ group_label := 3,
                       annotation := List.replicate 301 { instance_id := 0, bbox := exBoxA } }]

/-- The layer on bounding-box data after `iters` passes with policy `policy_num`
active. -/
def exLayerAt (iters policy_num : Nat) : Layer :=
  { iters := iters, policy_num := policy_num, has_anno_type := true,
    anno_type := AnnotationType.BBOX }

/-- Two resize policies of probability 1/2 each, neither of them per-sample
resize. -/
def exTwoPolicies : List ResizeParameter :=
  [{ prob := 1 / 2, resize_mode := Resize_mode.WARP },
   { prob := 1 / 2, resize_mode := Resize_mode.FIT_LARGE_SIZE_AND_PAD }]

/-- Two resize policies of probability 1/2 each, the second one per-sample
resize. -/
def exLateFitSmall : List ResizeParameter :=
  [{ prob := 1 / 2, resize_mode := Resize_mode.WARP },
   { prob := 1 / 2, resize_mode := Resize_mode.FIT_SMALL_SIZE }]

/-- One sample per item, each of shape `[1, 3, 200, 200]` and without annotations. -/
def exSmallReader : Nat → Sample :=
  fun _ => { exSample [] with shape := [1, 3, 200, 200] }

/-! ## Auxiliary descriptions used in the proofs -/

/-- Memory after the values `vs` have been stored in consecutive cells from
`idx` on. -/
def writeSpan (idx : Nat) (vs : List ℚ) (m : Mem) : Mem :=
  fun j => if idx ≤ j ∧ j < idx + vs.length then vs.getD (j - idx) 0 else m j

/-- Values one annotation contributes to the label buffer. -/
def annoValues (yolo train_diffcult : Bool) (item_id : Nat) (group_label : Int)
    (anno : Annotation) : List ℚ :=
  if yolo then
    if !anno.bbox.difficult || train_diffcult then yoloRow group_label anno.bbox else []
  else denseRow item_id group_label anno

/-- Values one item contributes to the label buffer, in store order. -/
def itemValues (yolo train_diffcult : Bool) (item_id : Nat)
    (anno_vec : List AnnotationGroup) : List ℚ :=
  anno_vec.flatMap (fun g =>
    g.annotation.flatMap (annoValues yolo train_diffcult item_id g.group_label))

/-- Values the items from `item_id` on contribute, in store order. -/
def batchValues (yolo train_diffcult : Bool) :
    Nat → List (List AnnotationGroup) → List ℚ
  | _, [] => []
  | item_id, anno_vec :: rest =>
    itemValues yolo train_diffcult item_id anno_vec
      ++ batchValues yolo train_diffcult (item_id + 1) rest

/-! ## Stores into the label buffer -/

theorem writeSpan_nil (idx : Nat) (m : Mem) : writeSpan idx [] m = m := by
  funext j
  simp [writeSpan]

theorem writeSpan_cons (idx : Nat) (v : ℚ) (vs : List ℚ) (m : Mem) :
    writeSpan (idx + 1) vs (Function.update m idx v) = writeSpan idx (v :: vs) m := by
  funext j
  unfold writeSpan
  by_cases h1 : idx + 1 ≤ j ∧ j < idx + 1 + vs.length
  · have h2 : idx ≤ j ∧ j < idx + (v :: vs).length := by
      simp only [List.length_cons]; omega
    have h3 : j - idx = (j - (idx + 1)) + 1 := by omega
    rw [if_pos h1, if_pos h2, h3]
    simp [List.getD_cons_succ]
  · by_cases h4 : j = idx
    · subst h4
      have h2 : j ≤ j ∧ j < j + (v :: vs).length := by
        simp only [List.length_cons]; omega
      rw [if_neg h1, if_pos h2]
      simp
    · have h2 : ¬ (idx ≤ j ∧ j < idx + (v :: vs).length) := by
        simp only [List.length_cons]; omega
      rw [if_neg h1, if_neg h2, Function.update_noteq h4]

/-- A run of stores either writes all its values or runs past the end of the
buffer. -/
theorem storeAll_eq (count : Nat) (vs : List ℚ) (idx : Nat) (m : Mem) :
    storeAll count vs idx m =
      if vs = [] ∨ idx + vs.length ≤ count then .ok (idx + vs.length, writeSpan idx vs m)
      else .error .outOfRange := by
  induction vs generalizing idx m with
  | nil => simp [storeAll, writeSpan_nil]
  | cons v vs ih =>
    unfold storeAll store
    by_cases h : idx < count
    · rw [if_pos h]
      simp only
      rw [ih (idx + 1) (Function.update m idx v), writeSpan_cons]
      by_cases h2 : vs = []
      · subst h2
        have : idx + 1 ≤ count := h
        simp [this]
      · have e : idx + 1 + vs.length = idx + (v :: vs).length := by
          simp only [List.length_cons]; omega
        simp only [h2, false_or, e, reduceCtorEq]
    · rw [if_neg h]
      have h3 : ¬ (idx + (vs.length + 1) ≤ count) := by omega
      simp [h3]

theorem writeSpan_append (idx : Nat) (a b : List ℚ) (m : Mem) :
    writeSpan (idx + a.length) b (writeSpan idx a m) = writeSpan idx (a ++ b) m := by
  induction a generalizing idx m with
  | nil => simp [writeSpan_nil]
  | cons v a ih =>
    have e : idx + (v :: a).length = idx + 1 + a.length := by
      simp only [List.length_cons]; omega
    rw [← writeSpan_cons, List.cons_append, ← writeSpan_cons, ← ih, e]

theorem storeAll_append (count : Nat) (a b : List ℚ) (idx : Nat) (m : Mem) :
    storeAll count (a ++ b) idx m =
      match storeAll count a idx m with
      | .error e => .error e
      | .ok (i1, m1) => storeAll count b i1 m1 := by
  induction a generalizing idx m with
  | nil => simp [storeAll]
  | cons v a ih =>
    simp only [List.cons_append, storeAll]
    cases h : store count m idx v with
    | error e => simp
    | ok m1 => simp only; exact ih (idx + 1) m1

/-! ## The encoding loops as runs of stores -/

theorem annoStep_eq (yolo train_diffcult : Bool) (count item_id : Nat) (group_label : Int)
    (anno : Annotation) (idx : Nat) (m : Mem) :
    (if yolo then
        if !anno.bbox.difficult || train_diffcult then
          storeAll count (yoloRow group_label anno.bbox) idx m
        else .ok (idx, m)
      else storeAll count (denseRow item_id group_label anno) idx m)
      = storeAll count (annoValues yolo train_diffcult item_id group_label anno) idx m := by
  unfold annoValues
  cases yolo
  · simp
  · by_cases h : (!anno.bbox.difficult || train_diffcult) = true
    · simp only [if_true, h]
    · simp only [if_true, h]
      simp [storeAll]

theorem encodeAnnotations_eq (yolo train_diffcult : Bool) (count item_id : Nat)
    (group_label : Int) (annos : List Annotation) (idx : Nat) (m : Mem) :
    encodeAnnotations yolo train_diffcult count item_id group_label annos idx m =
      storeAll count (annos.flatMap (annoValues yolo train_diffcult item_id group_label))
        idx m := by
  induction annos generalizing idx m with
  | nil => simp [encodeAnnotations, storeAll]
  | cons anno rest ih =>
    unfold encodeAnnotations
    simp only [List.flatMap_cons]
    rw [storeAll_append, annoStep_eq]
    cases h : storeAll count (annoValues yolo train_diffcult item_id group_label anno) idx m with
    | error e => rfl
    | ok r =>
      obtain ⟨i1, m1⟩ := r
      exact ih i1 m1

theorem encodeGroups_eq (yolo train_diffcult : Bool) (count item_id : Nat)
    (groups : List AnnotationGroup) (idx : Nat) (m : Mem) :
    encodeGroups yolo train_diffcult count item_id groups idx m =
      storeAll count (itemValues yolo train_diffcult item_id groups) idx m := by
  induction groups generalizing idx m with
  | nil => simp [encodeGroups, itemValues, storeAll]
  | cons g rest ih =>
    unfold encodeGroups
    have e : itemValues yolo train_diffcult item_id (g :: rest) =
        g.annotation.flatMap (annoValues yolo train_diffcult item_id g.group_label)
          ++ itemValues yolo train_diffcult item_id rest := by
      simp [itemValues]
    rw [e, storeAll_append, encodeAnnotations_eq]
    cases h : storeAll count
        (g.annotation.flatMap (annoValues yolo train_diffcult item_id g.group_label)) idx m with
    | error e => rfl
    | ok r =>
      obtain ⟨i1, m1⟩ := r
      exact ih i1 m1

/-- In dense mode the whole item loop is one run of stores. -/
theorem encodeItems_dense_eq (train_diffcult : Bool) (label : Blob) (item_id : Nat)
    (items : List (List AnnotationGroup)) (idx : Nat) (m : Mem) :
    encodeItems false train_diffcult label item_id items idx m =
      storeAll label.count (batchValues false train_diffcult item_id items) idx m := by
  induction items generalizing item_id idx m with
  | nil => simp [encodeItems, batchValues, storeAll]
  | cons anno_vec rest ih =>
    unfold encodeItems
    simp only [batchValues, Bool.false_eq_true, if_false]
    rw [storeAll_append, encodeGroups_eq]
    cases h : storeAll label.count (itemValues false train_diffcult item_id anno_vec) idx m with
    | error e => rfl
    | ok r =>
      obtain ⟨i1, m1⟩ := r
      exact ih (item_id + 1) i1 m1

/-! ## Fixed-slot mode: the item loop -/

/-- One turn of the item loop in fixed-slot mode: zero-fill the 1500 cells of the
item, then store its values from the item offset on. -/
theorem encodeItems_yolo_cons (train_diffcult : Bool) (label : Blob) (bs : Nat)
    (hc : label.count = bs * 1500) (ho : ∀ n, label.offset n = n * 1500)
    (k : Nat) (anno_vec : List AnnotationGroup) (rest : List (List AnnotationGroup))
    (idx : Nat) (m : Mem) (hk : k < bs) :
    encodeItems true train_diffcult label k (anno_vec :: rest) idx m =
      if itemValues true train_diffcult k anno_vec = [] ∨
          k * 1500 + (itemValues true train_diffcult k anno_vec).length ≤ bs * 1500 then
        encodeItems true train_diffcult label (k + 1) rest
          (k * 1500 + (itemValues true train_diffcult k anno_vec).length)
          (writeSpan (k * 1500) (itemValues true train_diffcult k anno_vec)
            (fun j => if k * 1500 ≤ j ∧ j < k * 1500 + 300 * 5 then 0 else m j))
      else .error .outOfRange := by
  have hb : k * 1500 + 300 * 5 ≤ bs * 1500 := by omega
  conv_lhs => unfold encodeItems
  simp only [if_true, caffe_set, ho, hc, if_pos hb, encodeGroups_eq, storeAll_eq]
  by_cases hfit : itemValues true train_diffcult k anno_vec = [] ∨
      k * 1500 + (itemValues true train_diffcult k anno_vec).length ≤ bs * 1500
  · simp only [if_pos hfit]
  · simp only [if_neg hfit]

theorem writeSpan_below (idx : Nat) (vs : List ℚ) (m : Mem) (p : Nat) (h : p < idx) :
    writeSpan idx vs m p = m p := by
  unfold writeSpan
  rw [if_neg]
  omega

theorem writeSpan_above (idx : Nat) (vs : List ℚ) (m : Mem) (p : Nat)
    (h : idx + vs.length ≤ p) : writeSpan idx vs m p = m p := by
  unfold writeSpan
  rw [if_neg]
  omega

theorem writeSpan_at (idx : Nat) (vs : List ℚ) (m : Mem) (q : Nat) (h : q < vs.length) :
    writeSpan idx vs m (idx + q) = vs.getD q 0 := by
  unfold writeSpan
  rw [if_pos (by omega)]
  congr 1
  omega

/-- What a completed item loop leaves in the buffer in fixed-slot mode: cells
below the first item and beyond the tensor keep their content, and the 1500
cells of each item hold its values followed by zeros. -/
theorem encodeItems_yolo_spec (train_diffcult : Bool) (label : Blob) (bs : Nat)
    (hc : label.count = bs * 1500) (ho : ∀ n, label.offset n = n * 1500)
    (items : List (List AnnotationGroup)) :
    ∀ (k idx : Nat) (m : Mem) (r : Nat × Mem), k + items.length ≤ bs →
      encodeItems true train_diffcult label k items idx m = .ok r →
      (∀ p, p < k * 1500 → r.2 p = m p) ∧
      (∀ p, bs * 1500 ≤ p → r.2 p = m p) ∧
      (∀ t, t < items.length → ∀ q, q < 1500 →
        r.2 ((k + t) * 1500 + q)
          = (itemValues true train_diffcult (k + t) (items.getD t [])).getD q 0) ∧
      (∀ t, t < items.length →
        (k + t) * 1500 + (itemValues true train_diffcult (k + t) (items.getD t [])).length
          ≤ bs * 1500) := by
  induction items with
  | nil =>
    intro k idx m r _ h
    simp only [encodeItems, Except.ok.injEq] at h
    subst h
    simp
  | cons anno_vec rest ih =>
    intro k idx m r hk h
    simp only [List.length_cons] at hk
    rw [encodeItems_yolo_cons train_diffcult label bs hc ho k anno_vec rest idx m (by omega)] at h
    by_cases hfit : itemValues true train_diffcult k anno_vec = [] ∨
        k * 1500 + (itemValues true train_diffcult k anno_vec).length ≤ bs * 1500
    · rw [if_pos hfit] at h
      have hlen : k * 1500 + (itemValues true train_diffcult k anno_vec).length ≤ bs * 1500 := by
        rcases hfit with h0 | h1
        · rw [h0]; simp only [List.length_nil]; omega
        · exact h1
      obtain ⟨i1, i2, i3, i4⟩ := ih (k + 1) _ _ r (by omega) h
      refine ⟨?_, ?_, ?_, ?_⟩
      · intro p hp
        rw [i1 p (by omega), writeSpan_below _ _ _ _ hp, if_neg (by omega)]
      · intro p hp
        rw [i2 p hp, writeSpan_above _ _ _ _ (by omega), if_neg (by omega)]
      · intro t ht q hq
        cases t with
        | zero =>
          simp only [Nat.add_zero, List.getD_cons_zero]
          rw [i1 _ (by omega)]
          by_cases hq2 : q < (itemValues true train_diffcult k anno_vec).length
          · exact writeSpan_at _ _ _ _ hq2
          · rw [writeSpan_above _ _ _ _ (by omega), if_pos (by omega),
              List.getD_eq_default _ _ (by omega)]
        | succ s =>
          simp only [List.length_cons] at ht
          have e : k + (s + 1) = k + 1 + s := by omega
          rw [e, List.getD_cons_succ]
          exact i3 s (by omega) q hq
      · intro t ht
        cases t with
        | zero =>
          simp only [Nat.add_zero, List.getD_cons_zero]
          exact hlen
        | succ s =>
          simp only [List.length_cons] at ht
          have e : k + (s + 1) = k + 1 + s := by omega
          rw [e, List.getD_cons_succ]
          exact i4 s (by omega)
    · rw [if_neg hfit] at h
      cases h

/-- The item loop completes in fixed-slot mode when every item's values end
within the tensor. -/
theorem encodeItems_yolo_ok (train_diffcult : Bool) (label : Blob) (bs : Nat)
    (hc : label.count = bs * 1500) (ho : ∀ n, label.offset n = n * 1500)
    (items : List (List AnnotationGroup)) :
    ∀ (k idx : Nat) (m : Mem), k + items.length ≤ bs →
      (∀ t, t < items.length →
        (k + t) * 1500 + (itemValues true train_diffcult (k + t) (items.getD t [])).length
          ≤ bs * 1500) →
      ∃ r, encodeItems true train_diffcult label k items idx m = .ok r := by
  induction items with
  | nil =>
    intro k idx m _ _
    exact ⟨(idx, m), rfl⟩
  | cons anno_vec rest ih =>
    intro k idx m hk hfit
    simp only [List.length_cons] at hk
    rw [encodeItems_yolo_cons train_diffcult label bs hc ho k anno_vec rest idx m (by omega)]
    have h0 := hfit 0 (by simp)
    simp only [Nat.add_zero, List.getD_cons_zero] at h0
    rw [if_pos (Or.inr h0)]
    apply ih (k + 1) _ _ (by omega)
    intro t ht
    have h1 := hfit (t + 1) (by simp only [List.length_cons]; omega)
    have e : k + (t + 1) = k + 1 + t := by omega
    rw [e, List.getD_cons_succ] at h1
    exact h1

/-! ## Items of the batch and their values -/

theorem batchItems_length (bs : Nat) (all_anno : Nat → List AnnotationGroup) :
    (batchItems bs all_anno).length = bs := by
  simp [batchItems]

theorem batchItems_getD (bs : Nat) (all_anno : Nat → List AnnotationGroup) (t : Nat)
    (h : t < bs) : (batchItems bs all_anno).getD t [] = all_anno t := by
  simp [batchItems, List.getD_eq_getElem?_getD, List.getElem?_map, List.getElem?_range h]

/-- Cell `j * n + c` of a concatenation of rows of width `n` is cell `c` of row `j`. -/
theorem flatMap_getD_row {α : Type} (f : α → List ℚ) (n : Nat) (rows : List α)
    (hw : ∀ x, (f x).length = n) :
    ∀ (j c : Nat) (a : α), rows[j]? = some a → c < n →
      (rows.flatMap f).getD (j * n + c) 0 = (f a).getD c 0 := by
  induction rows with
  | nil => intro j c a h; simp at h
  | cons x xs ih =>
    intro j c a h hc
    rw [List.flatMap_cons]
    cases j with
    | zero =>
      simp only [List.getElem?_cons_zero, Option.some.injEq] at h
      subst h
      rw [Nat.zero_mul, Nat.zero_add, List.getD_append _ _ _ _ (by rw [hw]; exact hc)]
    | succ s =>
      simp only [List.getElem?_cons_succ] at h
      have e : (s + 1) * n + c - (f x).length = s * n + c := by
        rw [hw, Nat.succ_mul]; omega
      rw [List.getD_append_right _ _ _ _ (by rw [hw, Nat.succ_mul]; omega), e]
      exact ih s c a h hc

theorem flatMap_length_row {α : Type} (f : α → List ℚ) (n : Nat) (rows : List α)
    (hw : ∀ x, (f x).length = n) : (rows.flatMap f).length = rows.length * n := by
  induction rows with
  | nil => simp
  | cons x xs ih =>
    rw [List.flatMap_cons, List.length_append, ih, hw, List.length_cons, Nat.succ_mul]
    omega

/-- In fixed-slot mode the values of an item are the rows of its surviving
annotations. -/
theorem itemValues_yolo (train_diffcult : Bool) (k : Nat) (anno_vec : List AnnotationGroup) :
    itemValues true train_diffcult k anno_vec =
      (survivors train_diffcult anno_vec).flatMap (fun p => yoloRow p.1 p.2) := by
  unfold itemValues survivors
  induction anno_vec with
  | nil => rfl
  | cons g rest ih =>
    rw [List.flatMap_cons, List.flatMap_cons, List.flatMap_append, ih]
    congr 1
    generalize g.annotation = annos
    induction annos with
    | nil => rfl
    | cons a as iha =>
      rw [List.flatMap_cons, iha]
      by_cases h : (!a.bbox.difficult || train_diffcult) = true
      · simp [annoValues, List.filter_cons, h]
      · simp [annoValues, List.filter_cons, h]

theorem yoloRow_length (L : Int) (b : NormalizedBBox) : (yoloRow L b).length = 5 := rfl

theorem yoloRow_eq_spec (L : Int) (b : NormalizedBBox) : yoloRow L b = specSlotRow L b := by
  simp [yoloRow, specSlotRow]

theorem itemValues_yolo_length (train_diffcult : Bool) (k : Nat)
    (anno_vec : List AnnotationGroup) :
    (itemValues true train_diffcult k anno_vec).length
      = (survivors train_diffcult anno_vec).length * 5 := by
  rw [itemValues_yolo]
  exact flatMap_length_row _ 5 _ (fun p => yoloRow_length p.1 p.2)

/-! ## The rich-annotation block in fixed-slot mode -/

theorem yolo_label_count (label : Blob) (bs : Nat) :
    (label.Reshape [bs, 1, 300, 5]).count = bs * 1500 := by
  simp only [Blob.count, Blob.Reshape, List.prod_cons, List.prod_nil]
  omega

theorem yolo_label_offset (label : Blob) (bs n : Nat) :
    (label.Reshape [bs, 1, 300, 5]).offset n = n * 1500 := by
  simp only [Blob.offset, Blob.Reshape, List.getD_cons_succ, List.getD_cons_zero]
  omega

/-- Fixed-slot mode with at least one box counted: a completed encoding has shape
`[batch_size, 1, 300, 5]`, the 1500 cells of each item hold its values followed
by zeros, every item's values end within the tensor, and memory beyond the tensor
is unchanged. -/
theorem storeRich_yolo_spec (train_diffcult : Bool) (bs : Nat)
    (all_anno : Nat → List AnnotationGroup) (n : Nat) (label out : Blob) (hn : n ≠ 0)
    (h : storeRichAnnotation 1 train_diffcult AnnotationType.BBOX bs all_anno n label = .ok out) :
    out.shape = [bs, 1, 300, 5] ∧
    (∀ i, i < bs → ∀ q, q < 1500 →
      out.data (i * 1500 + q) = (itemValues true train_diffcult i (all_anno i)).getD q 0) ∧
    (∀ i, i < bs →
      i * 1500 + (itemValues true train_diffcult i (all_anno i)).length ≤ bs * 1500) ∧
    (∀ p, bs * 1500 ≤ p → out.data p = label.data p) := by
  unfold storeRichAnnotation at h
  simp only [if_true, decide_True, if_neg hn] at h
  cases hr : encodeItems true train_diffcult (label.Reshape [bs, 1, 300, 5]) 0
      (batchItems bs all_anno) 0 (label.Reshape [bs, 1, 300, 5]).data with
  | error e => rw [hr] at h; cases h
  | ok r =>
    rw [hr] at h
    obtain ⟨i0, m0⟩ := r
    simp only [Except.ok.injEq] at h
    subst h
    obtain ⟨_, s2, s3, s4⟩ := encodeItems_yolo_spec train_diffcult _ bs
      (yolo_label_count label bs) (yolo_label_offset label bs) (batchItems bs all_anno)
      0 0 _ _ (by rw [batchItems_length]; omega) hr
    refine ⟨rfl, ?_, ?_, ?_⟩
    · intro i hi q hq
      have := s3 i (by rw [batchItems_length]; exact hi) q hq
      rw [Nat.zero_add, batchItems_getD _ _ _ hi] at this
      exact this
    · intro i hi
      have := s4 i (by rw [batchItems_length]; exact hi)
      rw [Nat.zero_add, batchItems_getD _ _ _ hi] at this
      exact this
    · intro p hp
      exact s2 p hp

/-- Fixed-slot mode with at least one box counted: the encoding completes when
every item's values end within the tensor. -/
theorem storeRich_yolo_ok (train_diffcult : Bool) (bs : Nat)
    (all_anno : Nat → List AnnotationGroup) (n : Nat) (label : Blob) (hn : n ≠ 0)
    (hfit : ∀ i, i < bs →
      i * 1500 + (itemValues true train_diffcult i (all_anno i)).length ≤ bs * 1500) :
    ∃ out, storeRichAnnotation 1 train_diffcult AnnotationType.BBOX bs all_anno n label
      = .ok out := by
  unfold storeRichAnnotation
  simp only [if_true, decide_True, if_neg hn]
  obtain ⟨r, hr⟩ := encodeItems_yolo_ok train_diffcult (label.Reshape [bs, 1, 300, 5]) bs
      (yolo_label_count label bs) (yolo_label_offset label bs) (batchItems bs all_anno)
      0 0 (label.Reshape [bs, 1, 300, 5]).data (by rw [batchItems_length]; omega)
      (by
        intro t ht
        rw [batchItems_length] at ht
        rw [Nat.zero_add, batchItems_getD _ _ _ ht]
        exact hfit t ht)
  rw [hr]
  exact ⟨_, rfl⟩

/-! ## The rich-annotation block in dense mode and for an empty batch -/

theorem batchValues_range (yolo train_diffcult : Bool) (f : Nat → List AnnotationGroup)
    (n : Nat) : ∀ k, batchValues yolo train_diffcult k ((List.range' k n).map f) =
      (List.range' k n).flatMap (fun i => itemValues yolo train_diffcult i (f i)) := by
  induction n with
  | zero => intro k; rfl
  | succ n ih =>
    intro k
    rw [List.range'_succ, List.map_cons, List.flatMap_cons, batchValues, ih (k + 1)]

theorem itemValues_dense (train_diffcult : Bool) (i : Nat) (anno_vec : List AnnotationGroup) :
    itemValues false train_diffcult i anno_vec = (specDenseRowsOfItem i anno_vec).flatten := by
  unfold itemValues specDenseRowsOfItem
  induction anno_vec with
  | nil => rfl
  | cons g rest ih =>
    have e : g.annotation.flatMap (annoValues false train_diffcult i g.group_label)
        = (g.annotation.map (fun a => denseRow i g.group_label a)).flatten := by
      rw [List.flatMap_def]
      rfl
    rw [List.flatMap_cons, List.flatMap_cons, List.flatten_append, ih, e]
    rfl

theorem batchValues_dense (train_diffcult : Bool) (bs : Nat)
    (all_anno : Nat → List AnnotationGroup) :
    batchValues false train_diffcult 0 (batchItems bs all_anno)
      = (specDenseRows bs all_anno).flatten := by
  unfold batchItems specDenseRows
  rw [List.range_eq_range', batchValues_range]
  generalize List.range' 0 bs = ids
  induction ids with
  | nil => rfl
  | cons i rest ih =>
    rw [List.flatMap_cons, List.flatMap_cons, List.flatten_append, ih, itemValues_dense]

theorem specDenseRowsOfItem_length (i : Nat) (anno_vec : List AnnotationGroup) :
    (specDenseRowsOfItem i anno_vec).length = annoVecBBoxes anno_vec := by
  unfold specDenseRowsOfItem annoVecBBoxes
  induction anno_vec with
  | nil => rfl
  | cons g rest ih =>
    rw [List.flatMap_cons, List.length_append, ih, List.map_cons, List.sum_cons,
      List.length_map]

theorem specDenseRows_length (bs : Nat) (all_anno : Nat → List AnnotationGroup) :
    (specDenseRows bs all_anno).length = countBBoxes bs all_anno := by
  unfold specDenseRows countBBoxes batchItems
  generalize List.range bs = ids
  induction ids with
  | nil => rfl
  | cons i rest ih =>
    rw [List.flatMap_cons, List.length_append, ih, specDenseRowsOfItem_length]
    simp

theorem specDenseRowsOfItem_width (i : Nat) (anno_vec : List AnnotationGroup) :
    ∀ row ∈ specDenseRowsOfItem i anno_vec, row.length = 8 := by
  intro row hrow
  unfold specDenseRowsOfItem at hrow
  rw [List.mem_flatMap] at hrow
  obtain ⟨g, _, hg⟩ := hrow
  rw [List.mem_map] at hg
  obtain ⟨a, _, ha⟩ := hg
  rw [← ha]
  rfl

theorem specDenseRows_width (bs : Nat) (all_anno : Nat → List AnnotationGroup) :
    ∀ row ∈ specDenseRows bs all_anno, row.length = 8 := by
  intro row hrow
  unfold specDenseRows at hrow
  rw [List.mem_flatMap] at hrow
  obtain ⟨i, _, hi⟩ := hrow
  exact specDenseRowsOfItem_width i (all_anno i) row hi

theorem flatten_length_of_width (rows : List (List ℚ)) (n : Nat)
    (hw : ∀ row ∈ rows, row.length = n) : rows.flatten.length = rows.length * n := by
  induction rows with
  | nil => simp
  | cons r rest ih =>
    rw [List.flatten_cons, List.length_append, ih (fun x hx => hw x (List.mem_cons_of_mem _ hx)),
      hw r (List.mem_cons_self _ _), List.length_cons, Nat.succ_mul]
    omega

/-- Reading `vs.length` cells from `idx` on after `vs` was stored there gives `vs`. -/
theorem map_writeSpan (vs : List ℚ) (m : Mem) :
    (List.range vs.length).map (writeSpan 0 vs m) = vs := by
  apply List.ext_getElem
  · simp
  · intro j h1 h2
    simp only [List.getElem_map, List.getElem_range]
    have := writeSpan_at 0 vs m j h2
    rw [Nat.zero_add] at this
    rw [this, List.getD_eq_getElem _ _ h2]

/-- Dense mode with `n ≥ 1` boxes counted: the block completes, the label has
shape `[1, 1, n, 8]` and its memory is the old one with the values of the batch
stored from cell 0 on. -/
theorem storeRich_dense (ydt : Int) (train_diffcult : Bool) (bs : Nat)
    (all_anno : Nat → List AnnotationGroup) (label : Blob) (hd : ydt ≠ 1)
    (hn : countBBoxes bs all_anno ≠ 0) :
    storeRichAnnotation ydt train_diffcult AnnotationType.BBOX bs all_anno
        (countBBoxes bs all_anno) label =
      .ok { shape := [1, 1, countBBoxes bs all_anno, 8],
            data := writeSpan 0 (specDenseRows bs all_anno).flatten label.data } := by
  unfold storeRichAnnotation
  have hlen : (specDenseRows bs all_anno).flatten.length = countBBoxes bs all_anno * 8 := by
    rw [flatten_length_of_width _ 8 (specDenseRows_width bs all_anno), specDenseRows_length]
  have hcount : (label.Reshape [1, 1, countBBoxes bs all_anno, 8]).count
      = countBBoxes bs all_anno * 8 := by
    simp only [Blob.count, Blob.Reshape, List.prod_cons, List.prod_nil]
    omega
  have hdec : decide (ydt = 1) = false := by simp [hd]
  simp only [if_true, hdec, if_neg hn, Bool.false_eq_true, if_false,
    encodeItems_dense_eq, batchValues_dense, storeAll_eq, hcount, hlen,
    Nat.zero_add, le_refl, or_true]
  rfl

/-- Dense mode with no box counted: shape `[1, 1, 1, 8]`, eight cells set to -1. -/
theorem storeRich_dense_zero (ydt : Int) (train_diffcult : Bool) (bs : Nat)
    (all_anno : Nat → List AnnotationGroup) (label : Blob) (hd : ydt ≠ 1) :
    storeRichAnnotation ydt train_diffcult AnnotationType.BBOX bs all_anno 0 label =
      .ok { shape := [1, 1, 1, 8],
            data := fun j => if 0 ≤ j ∧ j < 0 + 8 then -1 else label.data j } := by
  unfold storeRichAnnotation
  simp [hd, caffe_set, Blob.count, Blob.Reshape]

/-- Fixed-slot mode with no box counted: shape `[batch_size, 1, 300, 5]`, and
only the first eight cells are set to zero. -/
theorem storeRich_yolo_zero (train_diffcult : Bool) (bs : Nat)
    (all_anno : Nat → List AnnotationGroup) (label : Blob) (hbs : 0 < bs) :
    storeRichAnnotation 1 train_diffcult AnnotationType.BBOX bs all_anno 0 label =
      .ok { shape := [bs, 1, 300, 5],
            data := fun j => if 0 ≤ j ∧ j < 0 + 8 then 0 else label.data j } := by
  unfold storeRichAnnotation
  have hb : 0 + 8 ≤ (label.Reshape [bs, 1, 300, 5]).count := by
    rw [yolo_label_count]; omega
  simp only [if_true, decide_True, caffe_set, if_pos hb]
  rfl

/-! ## The pass as a whole -/

/-- The policy roll leaves everything but `policy_num` alone, and leaves
`policy_num` alone too unless policies are configured and `iters` is a multiple
of 10. -/
theorem rollPolicy_spec (cfg : Config) (die : List ℚ → Nat) (layer layer1 : Layer)
    (h : rollPolicy cfg die layer = .ok layer1) :
    layer1.iters = layer.iters ∧ layer1.has_anno_type = layer.has_anno_type ∧
    layer1.anno_type = layer.anno_type ∧
    (¬ (0 < cfg.resize_param.length ∧ layer.iters % 10 = 0) →
      layer1.policy_num = layer.policy_num) ∧
    ((0 < cfg.resize_param.length ∧ layer.iters % 10 = 0) →
      layer1.policy_num = die (cfg.resize_param.map (fun p => p.prob))) := by
  unfold rollPolicy at h
  by_cases hc : 0 < cfg.resize_param.length ∧ layer.iters % 10 = 0
  · simp only [if_pos hc] at h
    cases hp : checkProbs cfg.resize_param 0 with
    | error e => rw [hp] at h; cases h
    | ok prob_sum =>
      rw [hp] at h
      simp only at h
      by_cases hs : prob_sum ≤ 1 + prob_eps ∧ 1 - prob_eps ≤ prob_sum
      · rw [if_pos hs] at h
        simp only [Except.ok.injEq] at h
        subst h
        exact ⟨rfl, rfl, rfl, fun hn => absurd hc hn, fun _ => rfl⟩
      · rw [if_neg hs] at h
        cases h
  · simp only [if_neg hc, Except.ok.injEq] at h
    subst h
    exact ⟨rfl, rfl, rfl, fun _ => rfl, fun hy => absurd hy hc⟩

/-- One turn of the item loop on the rich-annotation path. -/
theorem processItem_rich (cfg : Config) (layer : Layer) (pass : Pass) (ts : List Nat)
    (item_id : Nat) (acc acc1 : Acc) (hlab : cfg.output_labels = true)
    (hty : layer.has_anno_type = true)
    (h : processItem cfg layer pass ts item_id acc = .ok acc1) :
    acc1.num_bboxes
      = acc.num_bboxes + annoVecBBoxes (pass.reader item_id).transformed_anno_vec ∧
    acc1.all_anno
      = Function.update acc.all_anno item_id (pass.reader item_id).transformed_anno_vec ∧
    layer.anno_type = AnnotationType.BBOX := by
  unfold processItem at h
  simp only at h
  cases h1 : regionSelection cfg layer.policy_num with
  | error e => rw [h1] at h; cases h
  | ok keep =>
    rw [h1] at h
    simp only at h
    cases h2 : reconcileShape cfg.resize_param layer.policy_num ts
        (pass.reader item_id).shape acc.data_shape with
    | error e => rw [h2] at h; cases h
    | ok ds =>
      rw [h2] at h
      simp only [annotateItem, hlab, hty, if_true] at h
      by_cases c1 : (pass.reader item_id).has_type = false
      · rw [if_pos c1] at h; cases h
      · rw [if_neg c1] at h
        by_cases c2 : cfg.has_anno_type = false ∧ layer.anno_type ≠ (pass.reader item_id).type
        · rw [if_pos c2] at h; cases h
        · rw [if_neg c2] at h
          by_cases c3 : layer.anno_type = AnnotationType.BBOX
          · rw [if_pos c3] at h
            simp only [Except.ok.injEq] at h
            subst h
            exact ⟨rfl, rfl, c3⟩
          · rw [if_neg c3] at h; cases h

/-- The item loop on the rich-annotation path: it counts the boxes of the items
it visits and records their transformed annotations. -/
theorem itemLoop_rich (cfg : Config) (layer : Layer) (pass : Pass) (ts : List Nat)
    (hlab : cfg.output_labels = true) (hty : layer.has_anno_type = true)
    (ids : List Nat) :
    ∀ (acc acc2 : Acc), itemLoop cfg layer pass ts ids acc = .ok acc2 →
      acc2.num_bboxes = acc.num_bboxes
        + (ids.map (fun i => annoVecBBoxes (pass.reader i).transformed_anno_vec)).sum ∧
      (∀ i, acc2.all_anno i
        = if i ∈ ids then (pass.reader i).transformed_anno_vec else acc.all_anno i) ∧
      (ids ≠ [] → layer.anno_type = AnnotationType.BBOX) := by
  induction ids with
  | nil =>
    intro acc acc2 h
    simp only [itemLoop, Except.ok.injEq] at h
    subst h
    simp
  | cons item_id rest ih =>
    intro acc acc2 h
    unfold itemLoop at h
    cases h1 : processItem cfg layer pass ts item_id acc with
    | error e => rw [h1] at h; cases h
    | ok acc1 =>
      rw [h1] at h
      simp only at h
      obtain ⟨p1, p2, p3⟩ := processItem_rich cfg layer pass ts item_id acc acc1 hlab hty h1
      obtain ⟨q1, q2, _⟩ := ih acc1 acc2 h
      refine ⟨?_, ?_, fun _ => p3⟩
      · rw [q1, p1, List.map_cons, List.sum_cons]
        omega
      · intro i
        rw [q2 i, p2]
        by_cases hi : i ∈ rest
        · simp [hi]
        · by_cases he : i = item_id
          · subst he
            simp [hi]
          · simp [hi, he, Function.update_noteq he]

/-- The rich-annotation block reads the annotation map only at the item ids
below the batch size. -/
theorem storeRich_congr (ydt : Int) (train_diffcult : Bool) (ty : AnnotationType)
    (bs : Nat) (f g : Nat → List AnnotationGroup) (n : Nat) (label : Blob)
    (hfg : ∀ i, i < bs → f i = g i) :
    storeRichAnnotation ydt train_diffcult ty bs f n label
      = storeRichAnnotation ydt train_diffcult ty bs g n label := by
  have e : batchItems bs f = batchItems bs g := by
    unfold batchItems
    apply List.map_congr_left
    intro i hi
    exact hfg i (List.mem_range.mp hi)
  unfold storeRichAnnotation
  rw [e]

/-- A completed pass on the rich-annotation path emits the label blob that the
rich-annotation block computes from the transformed annotations of its items
and their total box count. -/
theorem load_batch_rich (cfg : Config) (layer layer1 : Layer) (pass : Pass) (out : Batch)
    (hlab : cfg.output_labels = true) (hty : layer.has_anno_type = true)
    (h : load_batch cfg layer pass = .ok (layer1, out)) :
    storeRichAnnotation cfg.yolo_data_type cfg.train_diffcult AnnotationType.BBOX
        cfg.batch_size pass.all_anno (countBBoxes cfg.batch_size pass.all_anno)
        pass.label = .ok out.label := by
  unfold Pass.all_anno
  unfold load_batch at h
  by_cases h0 : pass.data_count = 0 ∨ pass.transformed_count = 0
  · rw [if_pos h0] at h; cases h
  · rw [if_neg h0] at h
    cases h1 : rollPolicy cfg pass.die layer with
    | error e => rw [h1] at h; cases h
    | ok l1 =>
      rw [h1] at h
      simp only at h
      obtain ⟨_, r2, r3, _, _⟩ := rollPolicy_spec cfg pass.die layer l1 h1
      cases h2 : itemLoop cfg l1 pass (pass.top_shape.set 0 cfg.batch_size)
          (List.range cfg.batch_size)
          { data_shape := pass.top_shape.set 0 cfg.batch_size, all_anno := fun _ => [],
            num_bboxes := 0, label_data := pass.label.data } with
      | error e => rw [h2] at h; cases h
      | ok acc =>
        rw [h2] at h
        simp only [hlab, r2, hty, and_self, if_true] at h
        obtain ⟨q1, q2, q3⟩ := itemLoop_rich cfg l1 pass _ hlab (r2.trans hty) _ _ _ h2
        cases h3 : storeRichAnnotation cfg.yolo_data_type cfg.train_diffcult l1.anno_type
            cfg.batch_size acc.all_anno acc.num_bboxes pass.label with
        | error e => rw [h3] at h; cases h
        | ok lab =>
          rw [h3] at h
          simp only [Except.ok.injEq, Prod.mk.injEq] at h
          obtain ⟨_, hout⟩ := h
          subst hout
          simp only
          have hn : acc.num_bboxes
              = countBBoxes cfg.batch_size (fun i => (pass.reader i).transformed_anno_vec) := by
            rw [q1]
            simp [countBBoxes, batchItems, List.map_map, Function.comp_def]
          have hbb : l1.anno_type = AnnotationType.BBOX := by
            by_cases hb : l1.anno_type = AnnotationType.BBOX
            · exact hb
            · unfold storeRichAnnotation at h3
              rw [if_neg hb] at h3
              cases h3
          rw [← h3, hn, hbb]
          apply storeRich_congr
          intro i hi
          rw [q2 i, if_pos (List.mem_range.mpr hi)]

/-! ## Fixed-slot layout of a completed pass -/

theorem survivors_length_le (train_diffcult : Bool) (anno_vec : List AnnotationGroup) :
    (survivors train_diffcult anno_vec).length ≤ annoVecBBoxes anno_vec := by
  unfold survivors annoVecBBoxes
  induction anno_vec with
  | nil => simp
  | cons g rest ih =>
    rw [List.flatMap_cons, List.length_append, List.map_cons, List.sum_cons, List.length_map]
    have := List.length_filter_le (fun a : Annotation => !a.bbox.difficult || train_diffcult)
      g.annotation
    omega

theorem annoVecBBoxes_le_count (bs : Nat) (all_anno : Nat → List AnnotationGroup) (i : Nat)
    (hi : i < bs) : annoVecBBoxes (all_anno i) ≤ countBBoxes bs all_anno := by
  unfold countBBoxes batchItems
  apply List.single_le_sum (fun x _ => Nat.zero_le x)
  rw [List.map_map]
  exact List.mem_map.mpr ⟨i, List.mem_range.mpr hi, rfl⟩

theorem survivors_false (anno_vec : List AnnotationGroup) :
    survivors false anno_vec = nonDifficult anno_vec := by
  simp [survivors, nonDifficult]

theorem survivors_true (anno_vec : List AnnotationGroup) :
    survivors true anno_vec = allAnnotations anno_vec := by
  simp [survivors, allAnnotations]

/-- Fixed-slot layout: after a completed pass in which at least one box was
counted, slot `j` of item `i` holds the row of the item's `j`-th surviving
annotation, or zeros when the item has no such annotation. -/
theorem fixed_slot_layout (cfg : Config) (layer layer1 : Layer) (pass : Pass) (out : Batch)
    (hlab : cfg.output_labels = true) (hty : layer.has_anno_type = true)
    (hyolo : cfg.yolo_data_type = 1)
    (hn : countBBoxes cfg.batch_size pass.all_anno ≠ 0)
    (h : load_batch cfg layer pass = .ok (layer1, out))
    (i : Nat) (hi : i < cfg.batch_size) (j : Nat) (hj : j < 300) :
    out.label.shape = [cfg.batch_size, 1, 300, 5] ∧
    (∀ L b, (survivors cfg.train_diffcult (pass.all_anno i))[j]? = some (L, b) →
      slotRow out.label i j = specSlotRow L b) ∧
    ((survivors cfg.train_diffcult (pass.all_anno i))[j]? = none →
      slotRow out.label i j = [0, 0, 0, 0, 0]) := by
  have hr := load_batch_rich cfg layer layer1 pass out hlab hty h
  rw [hyolo] at hr
  obtain ⟨s1, s2, _, _⟩ := storeRich_yolo_spec cfg.train_diffcult cfg.batch_size _ _ _ _ hn hr
  have hrow : ∀ f, f < 5 → slotField out.label i j f
      = ((survivors cfg.train_diffcult (pass.all_anno i)).flatMap
          (fun p => yoloRow p.1 p.2)).getD (j * 5 + f) 0 := by
    intro f hf
    unfold slotField
    have := s2 i hi (j * 5 + f) (by omega)
    rw [itemValues_yolo] at this
    rw [Nat.add_assoc]
    exact this
  refine ⟨s1, ?_, ?_⟩
  · intro L b hjs
    have hget : ∀ f, f < 5 → slotField out.label i j f = (yoloRow L b).getD f 0 := by
      intro f hf
      rw [hrow f hf]
      exact flatMap_getD_row (fun p : Int × NormalizedBBox => yoloRow p.1 p.2) 5 _
        (fun p => yoloRow_length p.1 p.2) j f (L, b) hjs hf
    rw [← yoloRow_eq_spec]
    simp only [slotRow, List.range, List.range.loop, List.map_cons, List.map_nil]
    rw [hget 0 (by omega), hget 1 (by omega), hget 2 (by omega), hget 3 (by omega),
      hget 4 (by omega)]
    rfl
  · intro hnone
    rw [List.getElem?_eq_none_iff] at hnone
    have hget : ∀ f, f < 5 → slotField out.label i j f = 0 := by
      intro f hf
      rw [hrow f hf]
      apply List.getD_eq_default
      have hl := flatMap_length_row (fun p : Int × NormalizedBBox => yoloRow p.1 p.2) 5
        (survivors cfg.train_diffcult (pass.all_anno i)) (fun p => yoloRow_length p.1 p.2)
      omega
    simp only [slotRow, List.range, List.range.loop, List.map_cons, List.map_nil]
    rw [hget 0 (by omega), hget 1 (by omega), hget 2 (by omega), hget 3 (by omega),
      hget 4 (by omega)]

/-! ## Dense mode -/

/-- C4. Dense mode (`yolo_data_type ≠ 1`): a completed pass whose transformed
samples carry no bounding box at all emits a label tensor of shape `[1,1,1,8]`
whose eight values are all -1. -/
theorem C4_dense_empty_batch (cfg : Config) (layer layer1 : Layer) (pass : Pass) (out : Batch)
    (hlab : cfg.output_labels = true) (hty : layer.has_anno_type = true)
    (hdense : cfg.yolo_data_type ≠ 1)
    (hzero : countBBoxes cfg.batch_size pass.all_anno = 0)
    (h : load_batch cfg layer pass = .ok (layer1, out)) :
    out.label.shape = [1, 1, 1, 8] ∧ ∀ k, k < 8 → out.label.data k = -1 := by
  have hr := load_batch_rich cfg layer layer1 pass out hlab hty h
  rw [hzero, storeRich_dense_zero _ _ _ _ _ hdense] at hr
  simp only [Except.ok.injEq] at hr
  rw [← hr]
  refine ⟨rfl, ?_⟩
  intro k hk
  simp only
  rw [if_pos (by omega)]

/-- The pass of C4 on a batch of two samples without annotations. -/
theorem C4_dense_empty_batch_witness :
    ∃ layer1 out,
      load_batch (exCfg 2 0 false []) exLayer (exPass 0 (fun _ => exSample []))
        = .ok (layer1, out) ∧
      out.label.shape = [1, 1, 1, 8] ∧ ∀ k, k < 8 → out.label.data k = -1 :=
  ⟨_, _, rfl,
    C4_dense_empty_batch (exCfg 2 0 false []) exLayer _ (exPass 0 (fun _ => exSample [])) _
      rfl rfl (by decide) rfl rfl⟩

/-- C5. Dense mode: a completed pass with `n ≥ 1` bounding boxes in total emits a
label tensor of shape `[1,1,n,8]` whose flat data is the concatenation of the rows
`[item_id, group_label, instance_id, xmin, ymin, xmax, ymax, difficult]` of the
boxes, enumerated by ascending item id, then group order, then annotation order;
there are `n` such rows, each of eight fields. -/
theorem C5_dense_rows (cfg : Config) (layer layer1 : Layer) (pass : Pass) (out : Batch)
    (hlab : cfg.output_labels = true) (hty : layer.has_anno_type = true)
    (hdense : cfg.yolo_data_type ≠ 1)
    (hn : 1 ≤ countBBoxes cfg.batch_size pass.all_anno)
    (h : load_batch cfg layer pass = .ok (layer1, out)) :
    out.label.shape = [1, 1, countBBoxes cfg.batch_size pass.all_anno, 8] ∧
    (specDenseRows cfg.batch_size pass.all_anno).length
      = countBBoxes cfg.batch_size pass.all_anno ∧
    (∀ row ∈ specDenseRows cfg.batch_size pass.all_anno, row.length = 8) ∧
    (List.range (countBBoxes cfg.batch_size pass.all_anno * 8)).map out.label.data
      = (specDenseRows cfg.batch_size pass.all_anno).flatten := by
  have hr := load_batch_rich cfg layer layer1 pass out hlab hty h
  rw [storeRich_dense _ _ _ _ _ hdense (by omega)] at hr
  simp only [Except.ok.injEq] at hr
  rw [← hr]
  refine ⟨rfl, specDenseRows_length _ _, specDenseRows_width _ _, ?_⟩
  have hlen : (specDenseRows cfg.batch_size pass.all_anno).flatten.length
      = countBBoxes cfg.batch_size pass.all_anno * 8 := by
    rw [flatten_length_of_width _ 8 (specDenseRows_width _ _), specDenseRows_length]
  simp only
  rw [← hlen]
  exact map_writeSpan _ _

/-- The pass of C5 on the two-sample batch with one box per sample: shape
`[1,1,2,8]`, row 0 from item 0 and row 1 from item 1. -/
theorem C5_dense_rows_witness :
    ∃ layer1 out,
      load_batch (exCfg 2 0 false []) exLayer (exPass 0 exOneBoxReader) = .ok (layer1, out) ∧
      out.label.shape = [1, 1, 2, 8] ∧
      (List.range 16).map out.label.data
        = [0, 3, 0, 1 / 4, 1 / 4, 3 / 4, 1, 0, 1, 3, 1, 1 / 4, 1 / 4, 3 / 4, 1, 0] := by
  have hc := C5_dense_rows (exCfg 2 0 false []) exLayer _ (exPass 0 exOneBoxReader) _
      rfl rfl (by decide) (by decide) rfl
  refine ⟨_, _, rfl, hc.1, ?_⟩
  have h4 := hc.2.2.2
  have e : countBBoxes (exCfg 2 0 false []).batch_size (exPass 0 exOneBoxReader).all_anno * 8
      = 16 := by decide
  rw [e] at h4
  rw [h4]
  simp [specDenseRows, specDenseRowsOfItem, exCfg, exPass, Pass.all_anno, exOneBoxReader,
    exSample, exBoxA, List.range, List.range.loop]

/-! ## Fixed-slot mode -/

theorem count_ne_zero_of_survivor (train_diffcult : Bool) (bs : Nat)
    (all_anno : Nat → List AnnotationGroup) (i j : Nat) (x : Int × NormalizedBBox)
    (hi : i < bs) (hj : (survivors train_diffcult (all_anno i))[j]? = some x) :
    countBBoxes bs all_anno ≠ 0 ∧ j < (survivors train_diffcult (all_anno i)).length := by
  have hlt : j < (survivors train_diffcult (all_anno i)).length := by
    by_contra hge
    rw [List.getElem?_eq_none (by omega)] at hj
    cases hj
  have h1 := survivors_length_le train_diffcult (all_anno i)
  have h2 := annoVecBBoxes_le_count bs all_anno i hi
  exact ⟨by omega, hlt⟩

theorem nonDifficult_not_difficult (anno_vec : List AnnotationGroup) (j : Nat) (L : Int)
    (b : NormalizedBBox) (h : (nonDifficult anno_vec)[j]? = some (L, b)) :
    b.difficult = false := by
  have hm : (L, b) ∈ nonDifficult anno_vec := List.mem_iff_getElem?.mpr ⟨j, h⟩
  unfold nonDifficult at hm
  rw [List.mem_flatMap] at hm
  obtain ⟨g, _, hg⟩ := hm
  rw [List.mem_map] at hg
  obtain ⟨a, ha, hab⟩ := hg
  rw [List.mem_filter] at ha
  have hb : a.bbox = b := (Prod.mk.inj hab).2
  rw [← hb]
  simpa using ha.2

/-- C6. Fixed-slot mode: after a completed pass, for every item with at most 300
surviving annotations, the `j`-th surviving annotation of the item, with corners
`(x0, y0, x1, y1)` and group label `L`, fills slot `j` of the item with
`[L - 1, (x0 + x1) / 2, (y0 + y1) / 2, x1 - x0, y1 - y0]`, in exact arithmetic. -/
theorem C6_fixed_slot_row (cfg : Config) (layer layer1 : Layer) (pass : Pass) (out : Batch)
    (hlab : cfg.output_labels = true) (hty : layer.has_anno_type = true)
    (hyolo : cfg.yolo_data_type = 1)
    (h : load_batch cfg layer pass = .ok (layer1, out))
    (i : Nat) (hi : i < cfg.batch_size)
    (hcap : (survivors cfg.train_diffcult (pass.all_anno i)).length ≤ 300)
    (j : Nat) (L : Int) (b : NormalizedBBox)
    (hj : (survivors cfg.train_diffcult (pass.all_anno i))[j]? = some (L, b)) :
    slotRow out.label i j =
      [(L : ℚ) - 1, (b.xmin + b.xmax) / 2, (b.ymin + b.ymax) / 2,
       b.xmax - b.xmin, b.ymax - b.ymin] := by
  obtain ⟨hn, hlt⟩ := count_ne_zero_of_survivor cfg.train_diffcult cfg.batch_size
    pass.all_anno i j (L, b) hi hj
  exact (fixed_slot_layout cfg layer layer1 pass out hlab hty hyolo hn h i hi j
    (by omega)).2.1 L b hj

/-- The pass of C6 on the two-sample batch with one box per sample: slot 0 of
item 1 holds class 2, centre (1/2, 5/8), size (1/2, 3/4). -/
theorem C6_fixed_slot_row_witness :
    ∃ layer1 out,
      load_batch (exCfg 2 1 false []) exLayer (exPass 0 exOneBoxReader) = .ok (layer1, out) ∧
      slotRow out.label 1 0 = [2, 1 / 2, 5 / 8, 1 / 2, 3 / 4] := by
  have hc := C6_fixed_slot_row (exCfg 2 1 false []) exLayer _ (exPass 0 exOneBoxReader) _
      rfl rfl rfl rfl 1 (by decide) (by decide) 0 3 exBoxA rfl
  refine ⟨_, _, rfl, ?_⟩
  rw [hc]
  norm_num [exBoxA]

/-- C7. Fixed-slot mode, difficulty filter: after a completed pass, with
`train_diffcult` disabled the slots of an item hold, in order, the rows of its
annotations that are not flagged difficult (a difficult annotation produces no
row, and the slots after the last such row are zero once a box was counted); with
`train_diffcult` enabled they hold, in order, the rows of all its annotations,
difficult or not, up to the 300 slots. -/
theorem C7_difficulty_filter (cfg : Config) (layer layer1 : Layer) (pass : Pass) (out : Batch)
    (hlab : cfg.output_labels = true) (hty : layer.has_anno_type = true)
    (hyolo : cfg.yolo_data_type = 1)
    (h : load_batch cfg layer pass = .ok (layer1, out))
    (i : Nat) (hi : i < cfg.batch_size) (j : Nat) (hj : j < 300) :
    (cfg.train_diffcult = false →
      (∀ L b, (nonDifficult (pass.all_anno i))[j]? = some (L, b) →
        b.difficult = false ∧ slotRow out.label i j = specSlotRow L b) ∧
      ((nonDifficult (pass.all_anno i))[j]? = none →
        countBBoxes cfg.batch_size pass.all_anno ≠ 0 →
        slotRow out.label i j = [0, 0, 0, 0, 0])) ∧
    (cfg.train_diffcult = true →
      (∀ L b, (allAnnotations (pass.all_anno i))[j]? = some (L, b) →
        slotRow out.label i j = specSlotRow L b) ∧
      ((allAnnotations (pass.all_anno i))[j]? = none →
        countBBoxes cfg.batch_size pass.all_anno ≠ 0 →
        slotRow out.label i j = [0, 0, 0, 0, 0])) := by
  constructor
  · intro htd
    constructor
    · intro L b hjs
      refine ⟨nonDifficult_not_difficult _ j L b hjs, ?_⟩
      rw [← survivors_false, ← htd] at hjs
      obtain ⟨hn, _⟩ := count_ne_zero_of_survivor cfg.train_diffcult cfg.batch_size
        pass.all_anno i j (L, b) hi hjs
      exact (fixed_slot_layout cfg layer layer1 pass out hlab hty hyolo hn h i hi j hj).2.1
        L b hjs
    · intro hnone hn
      rw [← survivors_false, ← htd] at hnone
      exact (fixed_slot_layout cfg layer layer1 pass out hlab hty hyolo hn h i hi j hj).2.2
        hnone
  · intro htd
    constructor
    · intro L b hjs
      rw [← survivors_true, ← htd] at hjs
      obtain ⟨hn, _⟩ := count_ne_zero_of_survivor cfg.train_diffcult cfg.batch_size
        pass.all_anno i j (L, b) hi hjs
      exact (fixed_slot_layout cfg layer layer1 pass out hlab hty hyolo hn h i hi j hj).2.1
        L b hjs
    · intro hnone hn
      rw [← survivors_true, ← htd] at hnone
      exact (fixed_slot_layout cfg layer layer1 pass out hlab hty hyolo hn h i hi j hj).2.2
        hnone

/-- The passes of C7 on a batch whose samples carry a difficult box followed by a
plain one: with the flag disabled slot 0 holds the plain box and slot 1 is zero;
with the flag enabled slot 0 holds the difficult box and slot 1 the plain one. -/
theorem C7_difficulty_filter_witness :
    (∃ layer1 out,
      load_batch (exCfg 2 1 false []) exLayer (exPass 0 exMixedReader) = .ok (layer1, out) ∧
      slotRow out.label 0 0 = specSlotRow 3 exBoxA ∧
      slotRow out.label 0 1 = [0, 0, 0, 0, 0]) ∧
    (∃ layer1 out,
      load_batch (exCfg 2 1 true []) exLayer (exPass 0 exMixedReader) = .ok (layer1, out) ∧
      slotRow out.label 0 0 = specSlotRow 3 exBoxB ∧
      slotRow out.label 0 1 = specSlotRow 3 exBoxA) := by
  have c0 := C7_difficulty_filter (exCfg 2 1 false []) exLayer _ (exPass 0 exMixedReader) _
      rfl rfl rfl rfl 0 (by decide) 0 (by decide)
  have c1 := C7_difficulty_filter (exCfg 2 1 false []) exLayer _ (exPass 0 exMixedReader) _
      rfl rfl rfl rfl 0 (by decide) 1 (by decide)
  have d0 := C7_difficulty_filter (exCfg 2 1 true []) exLayer _ (exPass 0 exMixedReader) _
      rfl rfl rfl rfl 0 (by decide) 0 (by decide)
  have d1 := C7_difficulty_filter (exCfg 2 1 true []) exLayer _ (exPass 0 exMixedReader) _
      rfl rfl rfl rfl 0 (by decide) 1 (by decide)
  exact ⟨⟨_, _, rfl, ((c0.1 rfl).1 3 exBoxA rfl).2, (c1.1 rfl).2 rfl (by decide)⟩,
    ⟨_, _, rfl, (d0.2 rfl).1 3 exBoxB rfl, (d1.2 rfl).1 3 exBoxA rfl⟩⟩

/-! ## Iteration counter and policy cadence -/

theorem setup_layer (cfg : Config) (d : SetupDatum) (r : SetupResult)
    (h : DataLayerSetUp cfg d = .ok r) : r.layer.iters = 0 ∧ r.layer.policy_num = 0 := by
  unfold DataLayerSetUp at h
  cases h1 : setupResizeCheck cfg.batch_size cfg.resize_param with
  | error e => rw [h1] at h; cases h
  | ok u =>
    rw [h1] at h
    simp only at h
    by_cases hl : cfg.output_labels = true
    · rw [if_pos hl] at h
      cases h2 : setupLabelShape cfg d with
      | error e => rw [h2] at h; cases h
      | ok t =>
        rw [h2] at h
        obtain ⟨a, b, c⟩ := t
        simp only [Except.ok.injEq] at h
        subst h
        exact ⟨rfl, rfl⟩
    · rw [if_neg hl] at h
      simp only [Except.ok.injEq] at h
      subst h
      exact ⟨rfl, rfl⟩

/-- A completed pass increments `iters` by one and changes `policy_num` only
through the roll. -/
theorem load_batch_state (cfg : Config) (layer layer1 : Layer) (pass : Pass) (out : Batch)
    (h : load_batch cfg layer pass = .ok (layer1, out)) :
    layer1.iters = layer.iters + 1 ∧
    (¬ (0 < cfg.resize_param.length ∧ layer.iters % 10 = 0) →
      layer1.policy_num = layer.policy_num) ∧
    ((0 < cfg.resize_param.length ∧ layer.iters % 10 = 0) →
      layer1.policy_num = pass.die (cfg.resize_param.map (fun p => p.prob))) := by
  unfold load_batch at h
  by_cases h0 : pass.data_count = 0 ∨ pass.transformed_count = 0
  · rw [if_pos h0] at h; cases h
  · rw [if_neg h0] at h
    cases h1 : rollPolicy cfg pass.die layer with
    | error e => rw [h1] at h; cases h
    | ok l1 =>
      rw [h1] at h
      simp only at h
      obtain ⟨r1, _, _, r4, r5⟩ := rollPolicy_spec cfg pass.die layer l1 h1
      split at h
      · cases h
      · split at h
        · cases h
        · simp only [Except.ok.injEq, Prod.mk.injEq] at h
          obtain ⟨hl, _⟩ := h
          subst hl
          exact ⟨by simp only; omega, r4, r5⟩

/-- The states visited by a completed run of passes. -/
theorem runPasses_spec (cfg : Config) (passes : List Pass) :
    ∀ (layer : Layer) (states : List Layer), runPasses cfg layer passes = .ok states →
      states.length = passes.length + 1 ∧ states[0]? = some layer ∧
      ∀ k s t, states[k]? = some s → states[k + 1]? = some t →
        s.iters = layer.iters + k ∧ t.iters = s.iters + 1 ∧
        (¬ (0 < cfg.resize_param.length ∧ s.iters % 10 = 0) →
          t.policy_num = s.policy_num) ∧
        (∀ p, passes[k]? = some p → (0 < cfg.resize_param.length ∧ s.iters % 10 = 0) →
          t.policy_num = p.die (cfg.resize_param.map (fun q => q.prob))) := by
  induction passes with
  | nil =>
    intro layer states h
    simp only [runPasses, Except.ok.injEq] at h
    subst h
    refine ⟨rfl, List.getElem?_cons_zero, ?_⟩
    intro k s t _ ht
    simp at ht
  | cons pass rest ih =>
    intro layer states h
    unfold runPasses at h
    cases h1 : load_batch cfg layer pass with
    | error e => rw [h1] at h; cases h
    | ok r =>
      obtain ⟨l1, out⟩ := r
      rw [h1] at h
      simp only at h
      cases h2 : runPasses cfg l1 rest with
      | error e => rw [h2] at h; cases h
      | ok tr1 =>
        rw [h2] at h
        simp only [Except.ok.injEq] at h
        subst h
        obtain ⟨a1, a2, a3⟩ := ih l1 tr1 h2
        obtain ⟨b1, b2, b3⟩ := load_batch_state cfg layer l1 pass out h1
        refine ⟨by simp only [List.length_cons]; omega, List.getElem?_cons_zero, ?_⟩
        intro k s t hs ht
        cases k with
        | zero =>
          simp only [List.getElem?_cons_zero, Option.some.injEq] at hs
          simp only [Nat.zero_add, List.getElem?_cons_succ] at ht
          rw [a2] at ht
          simp only [Option.some.injEq] at ht
          subst hs ht
          refine ⟨by omega, b1, b2, ?_⟩
          intro p hp hc
          simp only [List.getElem?_cons_zero, Option.some.injEq] at hp
          subst hp
          exact b3 hc
        | succ j =>
          simp only [List.getElem?_cons_succ] at hs ht
          obtain ⟨c1, c2, c3, c4⟩ := a3 j s t hs ht
          refine ⟨by omega, c2, c3, ?_⟩
          intro p hp hc
          simp only [List.getElem?_cons_succ] at hp
          exact c4 p hp hc

/-- C8. Resolution policy cadence: setup gives `iters = 0` and `policy_num = 0`;
along every completed sequence of passes the `k`-th pass starts with `iters = k`
and ends with `iters = k + 1`; `policy_num` at the end of a pass equals
`policy_num` at its start unless at least one resize policy is configured and the
pass started with `iters` divisible by 10, in which case it is the index the die
drew. -/
theorem C8_policy_cadence (cfg : Config) (d : SetupDatum) (r : SetupResult)
    (passes : List Pass) (states : List Layer)
    (hs : DataLayerSetUp cfg d = .ok r)
    (hrun : runPasses cfg r.layer passes = .ok states) :
    r.layer.iters = 0 ∧ r.layer.policy_num = 0 ∧
    states.length = passes.length + 1 ∧
    ∀ k s t, states[k]? = some s → states[k + 1]? = some t →
      s.iters = k ∧ t.iters = k + 1 ∧
      (¬ (0 < cfg.resize_param.length ∧ k % 10 = 0) → t.policy_num = s.policy_num) ∧
      (∀ p, passes[k]? = some p → (0 < cfg.resize_param.length ∧ k % 10 = 0) →
        t.policy_num = p.die (cfg.resize_param.map (fun q => q.prob))) := by
  obtain ⟨s1, s2⟩ := setup_layer cfg d r hs
  obtain ⟨a1, _, a3⟩ := runPasses_spec cfg passes r.layer states hrun
  refine ⟨s1, s2, a1, ?_⟩
  intro k s t hk ht
  obtain ⟨c1, c2, c3, c4⟩ := a3 k s t hk ht
  rw [s1, Nat.zero_add] at c1
  rw [c1] at c2 c3 c4
  exact ⟨c1, c2, c3, c4⟩

theorem exRoll (die : List ℚ → Nat) :
    rollPolicy (exCfg 1 1 false exTwoPolicies) die (exLayerAt 0 0)
      = .ok (exLayerAt 0 (die [1 / 2, 1 / 2])) := by
  simp only [rollPolicy, exCfg, exTwoPolicies, exLayerAt, checkProbs, prob_eps,
    List.length_cons, List.length_nil, List.map_cons, List.map_nil]
  norm_num

theorem exFirstPass :
    ∃ out, load_batch (exCfg 1 1 false exTwoPolicies) (exLayerAt 0 0) (exPass 1 exOneBoxReader)
      = .ok (exLayerAt 1 1, out) := by
  apply Exists.intro
  unfold load_batch
  rw [if_neg (by decide), exRoll]
  rfl

theorem exSecondPass :
    ∃ out, load_batch (exCfg 1 1 false exTwoPolicies) (exLayerAt 1 1) (exPass 0 exOneBoxReader)
      = .ok (exLayerAt 2 1, out) :=
  ⟨_, rfl⟩

theorem exTwoPasses :
    runPasses (exCfg 1 1 false exTwoPolicies) (exLayerAt 0 0)
        [exPass 1 exOneBoxReader, exPass 0 exOneBoxReader]
      = .ok [exLayerAt 0 0, exLayerAt 1 1, exLayerAt 2 1] := by
  obtain ⟨o1, h1⟩ := exFirstPass
  obtain ⟨o2, h2⟩ := exSecondPass
  simp only [runPasses, h1, h2]

/-- The run of C8 with two policies configured: the first pass starts at
`iters = 0` and draws policy 1, the second starts at `iters = 1` and keeps it
although its die would draw policy 0. -/
theorem C8_policy_cadence_witness :
    runPasses (exCfg 1 1 false exTwoPolicies) (exLayerAt 0 0)
        [exPass 1 exOneBoxReader, exPass 0 exOneBoxReader]
      = .ok [exLayerAt 0 0, exLayerAt 1 1, exLayerAt 2 1] ∧
    (exLayerAt 1 1).iters = 1 ∧ (exLayerAt 2 1).iters = 1 + 1 ∧
    (¬ (0 < (exCfg 1 1 false exTwoPolicies).resize_param.length ∧ 1 % 10 = 0) →
      (exLayerAt 2 1).policy_num = (exLayerAt 1 1).policy_num) :=
  have hc := C8_policy_cadence (exCfg 1 1 false exTwoPolicies) exSetupDatum
    { layer := exLayerAt 0 0, data_shape := [1, 3, 300, 300],
      label_shape := some [1, 1, 300, 5] }
    [exPass 1 exOneBoxReader, exPass 0 exOneBoxReader]
    [exLayerAt 0 0, exLayerAt 1 1, exLayerAt 2 1] rfl exTwoPasses
  have hk := hc.2.2.2 1 (exLayerAt 1 1) (exLayerAt 2 1) rfl rfl
  ⟨exTwoPasses, hk.1, hk.2.1, hk.2.2.1⟩

/-! ## Shape reconciliation -/

theorem processItem_mismatch (cfg : Config) (layer : Layer) (pass : Pass) (ts : List Nat)
    (i : Nat) (hnone : cfg.resize_param = [])
    (hdiff : (ts.drop 1).take 3 ≠ ((pass.reader i).shape.drop 1).take 3) (acc : Acc) :
    ∃ e, processItem cfg layer pass ts i acc = .error e := by
  unfold processItem
  simp only
  cases h1 : regionSelection cfg layer.policy_num with
  | error e => exact ⟨e, rfl⟩
  | ok keep =>
    simp only [reconcileShape, hnone, List.length_nil, Nat.lt_irrefl, if_false, if_neg hdiff]
    exact ⟨_, rfl⟩

theorem itemLoop_fail (cfg : Config) (layer : Layer) (pass : Pass) (ts : List Nat) (i : Nat)
    (hfail : ∀ acc, ∃ e, processItem cfg layer pass ts i acc = .error e) (ids : List Nat) :
    i ∈ ids → ∀ acc, ∃ e, itemLoop cfg layer pass ts ids acc = .error e := by
  induction ids with
  | nil => intro h; cases h
  | cons id rest ih =>
    intro hmem acc
    unfold itemLoop
    cases h1 : processItem cfg layer pass ts id acc with
    | error e => exact ⟨e, rfl⟩
    | ok acc1 =>
      simp only
      rcases List.mem_cons.mp hmem with he | hr
      · subst he
        obtain ⟨e, he⟩ := hfail acc
        rw [he] at h1
        cases h1
      · obtain ⟨e, he⟩ := ih hr acc1
        rw [he]
        exact ⟨e, rfl⟩

/-- C3, as the code has it. For every item of a batch whose inferred shape
differs from the declared shape of the batch in channels, height or width: when
no resize policy is configured, reconciliation fails with the shape-mismatch
check and the pass does not complete; when resize policies are configured and
the active one is not FIT_SMALL_SIZE, the shapes are not compared and
reconciliation succeeds, leaving the shape of the data blob as it was. -/
theorem C3_shape_check_only_without_policies (cfg : Config) (layer : Layer) (pass : Pass)
    (i : Nat) (hi : i < cfg.batch_size)
    (hdiff : ((pass.top_shape.set 0 cfg.batch_size).drop 1).take 3
      ≠ ((pass.reader i).shape.drop 1).take 3) :
    (cfg.resize_param = [] →
      (∀ policy_num data_shape,
        reconcileShape cfg.resize_param policy_num (pass.top_shape.set 0 cfg.batch_size)
          (pass.reader i).shape data_shape = .error .shapeMismatch) ∧
      ∃ e, load_batch cfg layer pass = .error e) ∧
    (∀ p data_shape, cfg.resize_param[layer.policy_num]? = some p →
      p.resize_mode ≠ Resize_mode.FIT_SMALL_SIZE →
      reconcileShape cfg.resize_param layer.policy_num (pass.top_shape.set 0 cfg.batch_size)
        (pass.reader i).shape data_shape = .ok data_shape) := by
  constructor
  · intro hnone
    constructor
    · intro policy_num data_shape
      simp only [reconcileShape, hnone, List.length_nil, Nat.lt_irrefl, if_false,
        if_neg hdiff]
    · unfold load_batch
      by_cases h0 : pass.data_count = 0 ∨ pass.transformed_count = 0
      · rw [if_pos h0]
        exact ⟨_, rfl⟩
      · rw [if_neg h0]
        cases h1 : rollPolicy cfg pass.die layer with
        | error e => exact ⟨e, rfl⟩
        | ok l1 =>
          simp only
          obtain ⟨e, he⟩ := itemLoop_fail cfg l1 pass (pass.top_shape.set 0 cfg.batch_size) i
            (processItem_mismatch cfg l1 pass _ i hnone hdiff) (List.range cfg.batch_size)
            (List.mem_range.mpr hi)
            { data_shape := pass.top_shape.set 0 cfg.batch_size, all_anno := fun _ => [],
              num_bboxes := 0, label_data := pass.label.data }
          rw [he]
          exact ⟨e, rfl⟩
  · intro p data_shape hp hmode
    have hlen : 0 < cfg.resize_param.length := by
      cases hrp : cfg.resize_param with
      | nil => rw [hrp] at hp; simp at hp
      | cons a b => simp
    simp only [reconcileShape, if_pos hlen, hp, if_neg hmode]

/-- The pass of C3 without resize policies on samples of shape `[1,3,200,200]`
in a batch declared `[1,3,300,300]`: the shape check stops the pass. -/
theorem C3_shape_check_only_without_policies_witness :
    reconcileShape [] 0 [1, 3, 300, 300] [1, 3, 200, 200] [1, 3, 300, 300]
      = .error .shapeMismatch ∧
    ∃ e, load_batch (exCfg 1 0 false []) exLayer (exPass 0 exSmallReader) = .error e :=
  have hc := C3_shape_check_only_without_policies (exCfg 1 0 false []) exLayer
    (exPass 0 exSmallReader) 0 (by decide) (by decide)
  ⟨(hc.1 rfl).1 0 [1, 3, 300, 300], (hc.1 rfl).2⟩

/-- C3 as stated fails: with a resize policy configured whose mode is not
FIT_SMALL_SIZE, a pass over samples of shape `[1,3,200,200]` in a batch declared
`[1,3,300,300]` completes. -/
theorem C3_counterexample :
    (exCfg 1 0 false exTwoPolicies).resize_param[(exLayerAt 1 1).policy_num]?
      = some { prob := 1 / 2, resize_mode := Resize_mode.FIT_LARGE_SIZE_AND_PAD } ∧
    (((exPass 0 exSmallReader).top_shape.set 0 1).drop 1).take 3 = [3, 300, 300] ∧
    (((exSmallReader 0).shape).drop 1).take 3 = [3, 200, 200] ∧
    ∃ out, load_batch (exCfg 1 0 false exTwoPolicies) (exLayerAt 1 1) (exPass 0 exSmallReader)
      = .ok (exLayerAt 2 1, out) :=
  ⟨rfl, rfl, rfl, _, rfl⟩

/-! ## Places where the code departs from the specification -/

/-- Fixed-slot mode, empty batch: a completed pass clears the first eight cells of
the label buffer and leaves every other cell with the content it had on entry. -/
theorem empty_batch_clears_eight_cells (cfg : Config) (layer layer1 : Layer) (pass : Pass)
    (out : Batch) (hlab : cfg.output_labels = true) (hty : layer.has_anno_type = true)
    (hyolo : cfg.yolo_data_type = 1) (hbs : 0 < cfg.batch_size)
    (hzero : countBBoxes cfg.batch_size pass.all_anno = 0)
    (h : load_batch cfg layer pass = .ok (layer1, out)) :
    out.label.shape = [cfg.batch_size, 1, 300, 5] ∧
    (∀ p, p < 8 → out.label.data p = 0) ∧
    (∀ p, 8 ≤ p → out.label.data p = pass.label.data p) := by
  have hr := load_batch_rich cfg layer layer1 pass out hlab hty h
  rw [hyolo, hzero, storeRich_yolo_zero _ _ _ _ hbs] at hr
  simp only [Except.ok.injEq] at hr
  rw [← hr]
  refine ⟨rfl, ?_, ?_⟩
  · intro p hp
    simp only
    rw [if_pos (by omega)]
  · intro p hp
    simp only
    rw [if_neg (by omega)]

/-- Fixed-slot mode: in a completed pass that counted a box, the rows of every
item end within the label tensor; a pass in which the rows of some item run past
the end of the tensor does not complete. -/
theorem fixed_slot_rows_end_within_tensor (cfg : Config) (layer layer1 : Layer) (pass : Pass)
    (out : Batch) (hlab : cfg.output_labels = true) (hty : layer.has_anno_type = true)
    (hyolo : cfg.yolo_data_type = 1)
    (hn : countBBoxes cfg.batch_size pass.all_anno ≠ 0)
    (h : load_batch cfg layer pass = .ok (layer1, out)) (i : Nat) (hi : i < cfg.batch_size) :
    i * 1500 + (survivors cfg.train_diffcult (pass.all_anno i)).length * 5
      ≤ cfg.batch_size * 1500 := by
  have hr := load_batch_rich cfg layer layer1 pass out hlab hty h
  rw [hyolo] at hr
  obtain ⟨_, _, s3, _⟩ := storeRich_yolo_spec cfg.train_diffcult cfg.batch_size _ _ _ _ hn hr
  have := s3 i hi
  rw [itemValues_yolo_length] at this
  exact this


/-- C1, at a failing input. Fixed-slot mode, batch of two items. A first pass
stores one box per item; the next pass reuses the label buffer and its samples
carry no box at all. Only the first eight cells of the buffer are cleared: slot 0
of item 1, which received no annotation in the second pass, still holds the box
of the first pass, and cells of an arbitrary prior content stay as they were. -/
theorem C1_empty_batch_keeps_stale_slots :
    (∃ l1 o1 l2 o2,
      load_batch (exCfg 2 1 false []) exLayer (exPass 0 exOneBoxReader) = .ok (l1, o1) ∧
      load_batch (exCfg 2 1 false []) l1
        { exPass 0 (fun _ => exSample []) with label := o1.label } = .ok (l2, o2) ∧
      o2.label.shape = [2, 1, 300, 5] ∧
      slotRow o2.label 1 0 = yoloRow 3 exBoxA ∧ slotRow o2.label 0 0 = [0, 0, 0, 0, 0]) ∧
    (∃ l o,
      load_batch (exCfg 2 1 false []) exLayer (exPass 0 (fun _ => exSample [])) = .ok (l, o) ∧
      countBBoxes 2 (exPass 0 (fun _ => exSample [])).all_anno = 0 ∧
      slotRow o.label 0 1 = [0, 0, 0, 7, 7] ∧ slotRow o.label 1 299 = [7, 7, 7, 7, 7]) :=
  ⟨⟨_, _, _, _, rfl, rfl, rfl, rfl, rfl⟩, ⟨_, _, rfl, rfl, rfl, rfl⟩⟩

/-- C2, at a failing input. Batch size 2 with the per-sample-resize policy
configured at position 1 of the policy list: setup completes, and the next pass
draws that policy and replaces the shape of the data blob by the shape of a
single sample. -/
theorem C2_setup_accepts_fit_small_size_at_position_one :
    DataLayerSetUp (exCfg 2 1 false exLateFitSmall) exSetupDatum
      = .ok { layer := exLayerAt 0 0, data_shape := [2, 3, 300, 300],
              label_shape := some [2, 1, 300, 5] } ∧
    (∃ out, load_batch (exCfg 2 1 false exLateFitSmall) (exLayerAt 0 0)
        (exPass 1 exOneBoxReader) = .ok (exLayerAt 1 1, out) ∧
      out.data_shape = [1, 3, 300, 300]) := by
  refine ⟨rfl, ?_⟩
  have hroll : rollPolicy (exCfg 2 1 false exLateFitSmall) (exPass 1 exOneBoxReader).die
      (exLayerAt 0 0) = .ok (exLayerAt 0 1) := by
    simp only [rollPolicy, exCfg, exLateFitSmall, exLayerAt, exPass, checkProbs, prob_eps,
      List.length_cons, List.length_nil, List.map_cons, List.map_nil]
    norm_num
  apply Exists.intro
  unfold load_batch
  rw [if_neg (by decide), hroll]
  exact ⟨rfl, rfl⟩

/-- C10, at a failing input. Jitter sampling (fixed-slot labels, no batch
sampler) with no resize policy configured: setup completes with `policy_num = 0`,
the policy list is empty, and the keep-aspect lookup of the first pass reads
`resize_param(0)` outside the list. -/
theorem C10_jitter_lookup_out_of_range :
    DataLayerSetUp (exCfgJitter 1 []) exSetupDatum
      = .ok { layer := exLayerAt 0 0, data_shape := [1, 3, 300, 300],
              label_shape := some [1, 1, 300, 5] } ∧
    (exCfgJitter 1 []).resize_param.length = 0 ∧
    regionSelection (exCfgJitter 1 []) (exLayerAt 0 0).policy_num = .error .outOfRange ∧
    load_batch (exCfgJitter 1 []) (exLayerAt 0 0) (exPass 0 exOneBoxReader)
      = .error .outOfRange :=
  ⟨rfl, rfl, rfl, rfl⟩

set_option maxRecDepth 100000

/-- C9, at a failing input. Fixed-slot mode, batch of one item with 301 surviving
annotations: the row of the 301st annotation is stored at cells 1500..1504, past
the end of the 1500-cell label tensor. -/
theorem C9_overflow_stores_past_the_tensor :
    (survivors (exCfg 1 1 false []).train_diffcult
      ((exPass 0 exCrowdedReader).all_anno 0)).length = 301 ∧
    load_batch (exCfg 1 1 false []) exLayer (exPass 0 exCrowdedReader)
      = .error .outOfRange :=
  ⟨by decide, rfl⟩

end AnnotatedDataLayer
